import Mathlib

/-!
Verification development for the front-end of the stick template engine
(`lex.go` and the parser file of package `parse`).

The lexer is embedded as a small-step state machine: each Go state
function (`lexData`, `lexExpression`, ...) becomes a Lean function from a
`Lexer` record to a `StepRes`.  Go loops inside a state function that
provably advance the scan head are written as recursive Lean functions
(`Lexer.wsLoop`); the two loops that can genuinely fail to advance
(`lexNumber`, `lexTagName`, and the scanning loop of `lexData`) are
unrolled one iteration per machine step, so that a fuel-driven
interpreter (`run`) faithfully represents both terminating and
non-terminating executions.  Go runtime failures (out-of-range slice
indexing, explicit aborts on impossible lexemes) are represented by the
`StepRes.crash` / `Option.none` outcomes.

Machine integers do not matter here (positions are list indices, the
bracket counter is a Go `int` that never approaches its bounds), so
positions are `Nat` and the counter is `Int`.  Strings are `List Char`;
Go's one-byte slice values `input[cursor:cursor+1]` (which are `""` at
end of input) are `Option Char`, with `none` for the empty string.
-/

namespace Stick

/-- Token kinds, from the `tokenType` constants of lex.go. -/
inductive TokenType
  | text
  | name
  | number
  | tagOpen
  | tagName
  | tagClose
  | printOpen
  | printClose
  | parensOpen
  | parensClose
  | arrayOpen
  | arrayClose
  | hashOpen
  | hashClose
  | stringOpen
  | stringClose
  | punctuation
  | operator
  | error
  | eof
  deriving DecidableEq, Repr

/-- A token: value, byte position of its start, and kind (struct `token`). -/
structure Token where
  value : List Char
  pos : Nat
  tokenType : TokenType
  deriving DecidableEq, Repr

/-- The mutable lexer record of lex.go (the `state` field lives in the
driver loop, here in `run`, so it is not part of the record). -/
structure Lexer where
  pos : Nat
  cursor : Nat
  parens : Int
  input : List Char
  tokens : List Token
  deriving DecidableEq, Repr

/-- Delimiter `"\x7b%"` (open tag). -/
def delimOpenTag : List Char := ['{', '%']

/-- Delimiter `"%\x7d"` (close tag). -/
def delimCloseTag : List Char := ['%', '}']

/-- Delimiter `"\x7b\x7b"` (open print). -/
def delimOpenPrint : List Char := ['{', '{']

/-- Delimiter `"\x7d\x7d"` (close print). -/
def delimClosePrint : List Char := ['}', '}']

/-- Go `isSpace` on a one-character string: space or tab. -/
def isSpace (c : Char) : Bool := c = ' ' || c = '\t'

/-- Go `unicode.IsLetter` (the claims are settled on inputs where this is
the ASCII letter test; no theorem below depends on the classification of
further code points). -/
def unicodeIsLetter (c : Char) : Bool := c.isAlpha

/-- Go `unicode.IsDigit` (ASCII fragment, as for `unicodeIsLetter`). -/
def unicodeIsDigit (c : Char) : Bool := c.isDigit

/-- Go `isNumeric` on a string of length at most one.  The empty string
(`none`) has no rune failing the test, so the Go loop body never runs and
the function returns `true`: this vacuous truth is what the lexer's
number loop observes at end of input. -/
def isNumericStr : Option Char → Bool
  | none => true
  | some c => unicodeIsDigit c

/-- Go `isAlphaNumeric` on a string of length at most one (empty string:
vacuously `true`, as for `isNumericStr`). -/
def isAlphaNumericStr : Option Char → Bool
  | none => true
  | some c => unicodeIsLetter c || unicodeIsDigit c

/-- Go `isName` on a string of length at most one. -/
def isNameStr : Option Char → Bool
  | none => true
  | some c => c = '_' || unicodeIsLetter c || unicodeIsDigit c

/-- Go `lex.current()`: the one-byte slice `input[cursor:cursor+1]`.
`none` encodes the out-of-range failure when `cursor ≥ len(input)`. -/
def Lexer.current (lex : Lexer) : Option Char := lex.input[lex.cursor]?

/-- Go `lex.next()`: advance the cursor and return the new current
character, or the empty string (`none`) at or past end of input. -/
def Lexer.next (lex : Lexer) : Option Char × Lexer :=
  if lex.input.length ≤ lex.cursor then (none, lex)
  else
    let l : Lexer := { lex with cursor := lex.cursor + 1 }
    if l.cursor = lex.input.length then (none, l) else (l.current, l)

/-- Go `lex.backup()`. -/
def Lexer.backup (lex : Lexer) : Lexer :=
  if lex.cursor ≤ lex.pos then lex else { lex with cursor := lex.cursor - 1 }

/-- Go `lex.ignore()`. -/
def Lexer.ignore (lex : Lexer) : Lexer := { lex with pos := lex.cursor }

/-- The scanning loop of Go `consumeWhitespace`, one constructor of the
counter per iteration so that the definition is structurally recursive
and computable by the kernel.  The counter is the distance from the
cursor to the end of input, which strictly bounds the number of
iterations; the zero case inside the space branch is unreachable when
the counter is that distance (a character at the cursor implies the
distance is positive).  `none` encodes the out-of-range failure of
`lex.current()` when the run of spaces extends to the end of input. -/
def Lexer.wsGo : Nat → Lexer → Option Lexer
  | n, lex =>
    match lex.input[lex.cursor]? with
    | none => none
    | some c =>
      if isSpace c then
        match n with
        | 0 => none
        | m + 1 => Lexer.wsGo m lex.next.2
      else some lex

/-- The scanning loop of Go `consumeWhitespace`: skip spaces and tabs. -/
def Lexer.wsLoop (lex : Lexer) : Option Lexer :=
  Lexer.wsGo (lex.input.length - lex.cursor) lex

/-- Go `lex.consumeWhitespace()`: abort (`none`) unless called directly
after an emission (`pos = cursor`), then skip whitespace and ignore it. -/
def Lexer.consumeWhitespace (lex : Lexer) : Option Lexer :=
  if lex.pos = lex.cursor then (Lexer.wsLoop lex).map Lexer.ignore else none

/-- Go `lex.emit(t)`: record `input[pos:cursor]` as a token, move `pos`
up to `cursor`, and consume following whitespace when input remains.
`none` encodes the failures of the slice expression (`pos > cursor` or
`cursor > len(input)`) and of `consumeWhitespace`. -/
def Lexer.emit (t : TokenType) (lex : Lexer) : Option Lexer :=
  if lex.pos ≤ lex.cursor ∧ lex.cursor ≤ lex.input.length then
    let val := (lex.input.drop lex.pos).take (lex.cursor - lex.pos)
    let l : Lexer :=
      { lex with tokens := lex.tokens ++ [⟨val, lex.pos, t⟩], pos := lex.cursor }
    if l.pos < l.input.length then l.consumeWhitespace else some l
  else none

/-- Go `lex.errorf(...)`: append an error token; the state machine halts
(the caller returns `nil`). -/
def Lexer.errorf (msg : List Char) (lex : Lexer) : Lexer :=
  { lex with tokens := lex.tokens ++ [⟨msg, lex.pos, .error⟩] }

/-- Go `strings.Index(s, "\"")`: position of the first quote, `none` for
Go's `-1`. -/
def quoteIndex (l : List Char) : Option Nat := l.findIdx? (fun c => c = '"')

/-- The names of the Go state functions (`stateFn` values); the extra
loop entries make one machine step out of one Go loop iteration. -/
inductive LState
  | data
  | expression
  | number
  | operator
  | punctuation
  | strLit
  | openParens
  | closeParens
  | nameTok
  | tagOpen
  | tagName
  | tagClose
  | printOpen
  | printClose
  deriving DecidableEq, Repr

/-- Result of one machine step: continue in a state (a Go state function
returned another), halt (it returned `nil`), or crash (a Go panic). -/
inductive StepRes
  | cont (st : LState) (lex : Lexer)
  | halt (lex : Lexer)
  | crash
  deriving DecidableEq, Repr

/-- One iteration of the scanning loop of Go `lexData`; on end of input
the same call emits the trailing text, emits EOF and halts. -/
def lexData (lex : Lexer) : StepRes :=
  if delimOpenTag.isPrefixOf (lex.input.drop lex.cursor) then
    if lex.pos < lex.cursor then
      match Lexer.emit .text lex with
      | none => .crash
      | some l => .cont .tagOpen l
    else .cont .tagOpen lex
  else if delimOpenPrint.isPrefixOf (lex.input.drop lex.cursor) then
    if lex.pos < lex.cursor then
      match Lexer.emit .text lex with
      | none => .crash
      | some l => .cont .printOpen l
    else .cont .printOpen lex
  else
    match lex.next with
    | (some _, l) => .cont .data l
    | (none, l) =>
      match (if l.pos < l.cursor then Lexer.emit .text l else some l) with
      | none => .crash
      | some l2 =>
        match Lexer.emit .eof l2 with
        | none => .crash
        | some l3 => .halt l3

/-- Go `lexExpression`: dispatch on the current character.  The two
`.crash` outcomes inside the close-delimiter branches are the Go
`panic("Incomplete token?")` aborts; the final `.crash` is
`panic("Unknown expression")`; the `none` case is the out-of-range
failure of `lex.current()` at end of input. -/
def lexExpression (lex : Lexer) : StepRes :=
  match lex.current with
  | none => .crash
  | some c =>
    if delimCloseTag.isPrefixOf (lex.input.drop lex.cursor) then
      if lex.pos < lex.cursor then .crash else .cont .tagClose lex
    else if delimClosePrint.isPrefixOf (lex.input.drop lex.cursor) then
      if lex.pos < lex.cursor then .crash else .cont .printClose lex
    else if c = '+' || c = '-' || c = '/' || c = '*' || c = '%' || c = '~' then
      .cont .operator lex
    else if c = ',' || c = '?' || c = ':' || c = '|' then
      .cont .punctuation lex
    else if c = '(' || c = '[' || c = '{' then
      .cont .openParens lex
    else if c = '}' || c = ']' || c = ')' then
      .cont .closeParens lex
    else if c = '"' then
      .cont .strLit lex
    else if isNumericStr (some c) then
      .cont .number lex
    else if isNameStr (some c) then
      .cont .nameTok lex
    else .crash

/-- One iteration of the loop of Go `lexNumber`: advance; keep looping
while the returned string is numeric (vacuously so for the empty string
at end of input), otherwise emit the number and return to the
expression state. -/
def lexNumber (lex : Lexer) : StepRes :=
  let r := lex.next
  if isNumericStr r.1 then .cont .number r.2
  else
    match Lexer.emit .number r.2 with
    | none => .crash
    | some l => .cont .expression l

/-- Go `lexOperator`. -/
def lexOperator (lex : Lexer) : StepRes :=
  match Lexer.emit .operator lex.next.2 with
  | none => .crash
  | some l => .cont .expression l

/-- Go `lexPunctuation`. -/
def lexPunctuation (lex : Lexer) : StepRes :=
  match Lexer.emit .punctuation lex.next.2 with
  | none => .crash
  | some l => .cont .expression l

/-- Go `lexString`: consume the opening quote, emit it, look for the
closing quote; if there is none, emit the "unclosed string" error and
halt; otherwise emit the interior as text and the closing quote. -/
def lexString (lex : Lexer) : StepRes :=
  match Lexer.emit .stringOpen lex.next.2 with
  | none => .crash
  | some l2 =>
    match quoteIndex (l2.input.drop l2.cursor) with
    | none => .halt (Lexer.errorf ("unclosed string".toList) l2)
    | some i =>
      match Lexer.emit .text { l2 with cursor := l2.cursor + i } with
      | none => .crash
      | some l4 =>
        match Lexer.emit .stringClose l4.next.2 with
        | none => .crash
        | some l6 => .cont .expression l6

/-- Go `lexOpenParens`: emit the matching bracket token and increment
the nesting counter. -/
def lexOpenParens (lex : Lexer) : StepRes :=
  match lex.current with
  | none => .crash
  | some c =>
    if c = '(' then
      match Lexer.emit .parensOpen lex.next.2 with
      | none => .crash
      | some l => .cont .expression { l with parens := l.parens + 1 }
    else if c = '[' then
      match Lexer.emit .arrayOpen lex.next.2 with
      | none => .crash
      | some l => .cont .expression { l with parens := l.parens + 1 }
    else if c = '{' then
      match Lexer.emit .hashOpen lex.next.2 with
      | none => .crash
      | some l => .cont .expression { l with parens := l.parens + 1 }
    else .crash

/-- Go `lexCloseParens`: emit the matching bracket token and decrement
the nesting counter (which may therefore become negative). -/
def lexCloseParens (lex : Lexer) : StepRes :=
  match lex.current with
  | none => .crash
  | some c =>
    if c = ')' then
      match Lexer.emit .parensClose lex.next.2 with
      | none => .crash
      | some l => .cont .expression { l with parens := l.parens - 1 }
    else if c = ']' then
      match Lexer.emit .arrayClose lex.next.2 with
      | none => .crash
      | some l => .cont .expression { l with parens := l.parens - 1 }
    else if c = '}' then
      match Lexer.emit .hashClose lex.next.2 with
      | none => .crash
      | some l => .cont .expression { l with parens := l.parens - 1 }
    else .crash

/-- One iteration of the loop of Go `lexName`: while the current
character is alphanumeric, advance; then emit the name.  Note the test
uses `isAlphaNumeric`, so an underscore (accepted by the dispatch test
`isName`) stops the loop at once. -/
def lexName (lex : Lexer) : StepRes :=
  match lex.current with
  | none => .crash
  | some c =>
    if isAlphaNumericStr (some c) then .cont .nameTok lex.next.2
    else
      match Lexer.emit .name lex with
      | none => .crash
      | some l => .cont .expression l

/-- Go `lexTagOpen`. -/
def lexTagOpen (lex : Lexer) : StepRes :=
  match Lexer.emit .tagOpen { lex with cursor := lex.cursor + delimOpenTag.length } with
  | none => .crash
  | some l => .cont .tagName l

/-- One iteration of the loop of Go `lexTagName` (same loop shape as
`lexNumber`, with the same vacuous-truth behaviour at end of input). -/
def lexTagName (lex : Lexer) : StepRes :=
  let r := lex.next
  if isAlphaNumericStr r.1 then .cont .tagName r.2
  else
    match Lexer.emit .tagName r.2 with
    | none => .crash
    | some l => .cont .expression l

/-- Go `lexTagClose`: with a positive bracket counter, emit the
"unclosed parenthesis" error and halt; otherwise emit the delimiter. -/
def lexTagClose (lex : Lexer) : StepRes :=
  if 0 < lex.parens then .halt (Lexer.errorf ("unclosed parenthesis".toList) lex)
  else
    match Lexer.emit .tagClose { lex with cursor := lex.cursor + delimCloseTag.length } with
    | none => .crash
    | some l => .cont .data l

/-- Go `lexPrintOpen`. -/
def lexPrintOpen (lex : Lexer) : StepRes :=
  match Lexer.emit .printOpen { lex with cursor := lex.cursor + delimOpenPrint.length } with
  | none => .crash
  | some l => .cont .expression l

/-- Go `lexPrintClose` (same guard as `lexTagClose`). -/
def lexPrintClose (lex : Lexer) : StepRes :=
  if 0 < lex.parens then .halt (Lexer.errorf ("unclosed parenthesis".toList) lex)
  else
    match Lexer.emit .printClose { lex with cursor := lex.cursor + delimClosePrint.length } with
    | none => .crash
    | some l => .cont .data l

/-- Dispatch a machine step to the state's function. -/
def step : LState → Lexer → StepRes
  | .data, lex => lexData lex
  | .expression, lex => lexExpression lex
  | .number, lex => lexNumber lex
  | .operator, lex => lexOperator lex
  | .punctuation, lex => lexPunctuation lex
  | .strLit, lex => lexString lex
  | .openParens, lex => lexOpenParens lex
  | .closeParens, lex => lexCloseParens lex
  | .nameTok, lex => lexName lex
  | .tagOpen, lex => lexTagOpen lex
  | .tagName, lex => lexTagName lex
  | .tagClose, lex => lexTagClose lex
  | .printOpen, lex => lexPrintOpen lex
  | .printClose, lex => lexPrintClose lex

/-- Result of driving the machine with a given amount of fuel.  `done`
carries the final lexer record (whose `tokens` field is the returned
token stream); `outOfFuel` means the machine had not halted after the
given number of state-function calls and loop iterations. -/
inductive RunRes
  | done (lex : Lexer)
  | crashed
  | outOfFuel
  deriving DecidableEq, Repr

/-- The driver loop of Go `tokenize`
(`for lex.state = lexData; lex.state != nil ...`), fuelled. -/
def run : Nat → LState → Lexer → RunRes
  | 0, _, _ => .outOfFuel
  | fuel + 1, st, lex =>
    match step st lex with
    | .cont st2 l => run fuel st2 l
    | .halt l => .done l
    | .crash => .crashed

/-- Go `lex.tokenize(code)`: reset `pos`, `cursor`, `input` and `tokens`
(but not `parens`), then drive the machine from `lexData`. -/
def Lexer.tokenize (lexer : Lexer) (code : List Char) (fuel : Nat) : RunRes :=
  run fuel .data { lexer with pos := 0, cursor := 0, input := code, tokens := [] }

/-- The zero value `lexer\x7b\x7d` of the Go `lexer` struct. -/
def newLexer : Lexer := { pos := 0, cursor := 0, parens := 0, input := [], tokens := [] }

/-- Go top-level `lex(input)`: tokenize on a fresh lexer. -/
def lex (input : List Char) (fuel : Nat) : RunRes := Lexer.tokenize newLexer input fuel

/-- The lexer record at the start of `tokenize` on a fresh lexer. -/
def initLex (code : List Char) : Lexer :=
  { pos := 0, cursor := 0, parens := 0, input := code, tokens := [] }

/-- The machine configuration after `n` steps, `none` once the machine
has halted or crashed (used to observe intermediate states). -/
def advance : Nat → LState → Lexer → Option (LState × Lexer)
  | 0, st, l => some (st, l)
  | n + 1, st, l =>
    match step st l with
    | .cont st2 l2 => advance n st2 l2
    | _ => none

/-!  The parser (`Tree`) of package `parse`.  The AST node types live in
a file of the repository that was not provided; for the block-stack and
backtrack-buffer operations only the identity of a block node matters,
so `BlockNode` is an opaque record with a tag. -/

/-- Modelled from the spec: an AST block node (section 3 data model);
its payload is irrelevant to the block-stack operations verified here,
so it is reduced to an identifying tag. -/
structure BlockNode where
  tag : Nat
  deriving DecidableEq, Repr

/-- A Go `map[string]*BlockNode`, as an association list without
duplicate keys (assignment overwrites in place, lookup scans). -/
abbrev BlockMap := List (String × BlockNode)

/-- Go map assignment `m[name] = body`: overwrite the existing entry or
append a new one. -/
def mapSet : BlockMap → String → BlockNode → BlockMap
  | [], k, v => [(k, v)]
  | (k2, v2) :: rest, k, v =>
    if k2 = k then (k, v) :: rest else (k2, v2) :: mapSet rest k v

/-- Go map lookup `m[name]`. -/
def mapGet : BlockMap → String → Option BlockNode
  | [], _ => none
  | (k2, v2) :: rest, k => if k2 = k then some v2 else mapGet rest k

/-- The parser state (struct `Tree`).  The `root` module node and the
`input` string play no part in the operations verified here and are
omitted; `stream` stands for the channel filled by the concurrent lexer
(modelled from the spec: the lexer is an independent producer feeding a
token channel, consumed in emission order by `nextToken`). -/
structure Tree where
  blocks : List BlockMap
  unread : List Token
  read : List Token
  stream : List Token
  deriving DecidableEq, Repr

/-- Go `t.Blocks()`: the top of the block stack (`none` encodes the
index-out-of-range failure on an empty stack). -/
def Tree.Blocks (t : Tree) : Option BlockMap := t.blocks.getLast?

/-- Go `t.popBlockStack()`: return the top scope and remove it. -/
def Tree.popBlockStack (t : Tree) : Option (BlockMap × Tree) :=
  match t.blocks.getLast? with
  | none => none
  | some m => some (m, { t with blocks := t.blocks.dropLast })

/-- Go `t.pushBlockStack()`: push a fresh empty scope. -/
def Tree.pushBlockStack (t : Tree) : Tree := { t with blocks := t.blocks ++ [[]] }

/-- Go `t.setBlock(name, body)`: insert/overwrite in the current
(innermost) scope only. -/
def Tree.setBlock (t : Tree) (name : String) (body : BlockNode) : Option Tree :=
  match t.blocks.getLast? with
  | none => none
  | some m => some { t with blocks := t.blocks.dropLast ++ [mapSet m name body] }

/-- Modelled from the spec: `t.lex.nextToken()`, the parser's pull from
the token channel (the channel-based lexer is not among the provided
source files).  Tokens arrive in emission order; an exhausted channel
yields the zero `token` value. -/
def Tree.nextToken (t : Tree) : Token × Tree :=
  match t.stream with
  | [] => (⟨[], 0, .text⟩, t)
  | tok :: rest => (tok, { t with stream := rest })

/-- Go `t.next()`: take the most recently unread token if any, else pull
from the lexer; either way append the token to the read list. -/
def Tree.next (t : Tree) : Token × Tree :=
  match t.unread.getLast? with
  | some tok =>
    (tok, { t with unread := t.unread.dropLast, read := t.read ++ [tok] })
  | none =>
    let r := t.nextToken
    (r.1, { r.2 with read := r.2.read ++ [r.1] })

/-- Go `t.backup()`: move the last read token onto the unread stack
(`none` encodes the index-out-of-range failure when nothing was read). -/
def Tree.backup (t : Tree) : Option Tree :=
  match t.read.getLast? with
  | none => none
  | some tok =>
    some { t with read := t.read.dropLast, unread := t.unread ++ [tok] }

/-- Go `t.backup2()`. -/
def Tree.backup2 (t : Tree) : Option Tree := (t.backup).bind Tree.backup

/-- Go `t.backup3()`. -/
def Tree.backup3 (t : Tree) : Option Tree := ((t.backup).bind Tree.backup).bind Tree.backup

/-!  Analysis predicates for the lexer claims. -/

/-- Interleaved concatenation of token values with the whitespace runs
discarded after each emission. -/
def joinTW (ts : List Token) (wss : List (List Char)) : List Char :=
  (List.zipWith (fun t w => t.value ++ w) ts wss).flatten

/-- A well-formed non-terminator token of a run over `input`: it is
neither EOF nor an error, and its value is the source substring at its
recorded position. -/
def TokenOk (input : List Char) (t : Token) : Prop :=
  t.tokenType ≠ .eof ∧ t.tokenType ≠ .error ∧
    t.value = (input.drop t.pos).take t.value.length

/-- Run invariant of a live lexer machine over `input`: the input field
is `input`, no emitted token is an EOF or error token and each is a
source substring at its position, and the consumed prefix of the source
(up to `pos`) is exactly the emitted values interleaved with the
discarded whitespace runs. -/
def Inv (input : List Char) (lexr : Lexer) : Prop :=
  lexr.input = input ∧ (∀ t ∈ lexr.tokens, TokenOk input t) ∧
    ∃ wss : List (List Char), wss.length = lexr.tokens.length ∧
      (∀ w ∈ wss, ∀ c ∈ w, isSpace c = true) ∧
      input.take lexr.pos = joinTW lexr.tokens wss

/-- Shape of the token stream of a halted (not crashed) run over
`input`: a single terminator token ends the stream; it is an error
token, or an EOF token in which case every discarded whitespace run and
token value together reassemble the whole source. -/
def FinalOk (input : List Char) (ts : List Token) : Prop :=
  ∃ ts0 t, ts = ts0 ++ [t] ∧ (∀ u ∈ ts0, TokenOk input u) ∧
    (t.tokenType = .error ∨
      (t.tokenType = .eof ∧ t.value = (input.drop t.pos).take t.value.length ∧
        ∃ wss : List (List Char), wss.length = ts.length ∧
          (∀ w ∈ wss, ∀ c ∈ w, isSpace c = true) ∧ input = joinTW ts wss))

/-!  Helper lemmas: the elementary cursor operations. -/

theorem next_ge (lexr : Lexer) (h : lexr.input.length ≤ lexr.cursor) :
    lexr.next = (none, lexr) := by
  simp [Lexer.next, h]

theorem next_snd (lexr : Lexer) (h : lexr.cursor < lexr.input.length) :
    lexr.next.2 = { lexr with cursor := lexr.cursor + 1 } := by
  simp only [Lexer.next, if_neg (by omega : ¬ lexr.input.length ≤ lexr.cursor)]
  split <;> rfl

theorem next_snd_cases (lexr : Lexer) :
    lexr.next.2 = lexr ∨ lexr.next.2 = { lexr with cursor := lexr.cursor + 1 } := by
  rcases Nat.lt_or_ge lexr.cursor lexr.input.length with h | h
  · exact Or.inr (next_snd lexr h)
  · rw [next_ge lexr h]
    exact Or.inl rfl

theorem inv_set_cursor (input : List Char) (lexr : Lexer) (c : Nat)
    (h : Inv input lexr) : Inv input { lexr with cursor := c } := h

theorem inv_set_parens (input : List Char) (lexr : Lexer) (p : Int)
    (h : Inv input lexr) : Inv input { lexr with parens := p } := h

theorem inv_next (input : List Char) (lexr : Lexer) (h : Inv input lexr) :
    Inv input lexr.next.2 := by
  rcases next_snd_cases lexr with h2 | h2 <;> rw [h2]
  · exact h
  · exact inv_set_cursor input lexr _ h

/-- Splitting a `take` at two intermediate points. -/
theorem take_split3 {α : Type} (xs : List α) (p c q : Nat) (h1 : p ≤ c) (h2 : c ≤ q) :
    xs.take q = xs.take p ++ (xs.drop p).take (c - p) ++ (xs.drop c).take (q - c) := by
  have e1 : xs.take q = xs.take (c + (q - c)) := by rw [Nat.add_sub_cancel' h2]
  have e2 : xs.take c = xs.take (p + (c - p)) := by rw [Nat.add_sub_cancel' h1]
  rw [e1, List.take_add, e2, List.take_add, List.append_assoc]

/-- A `take` is unchanged by re-taking its own length. -/
theorem take_take_length {α : Type} (xs : List α) (n : Nat) :
    xs.take ((xs.take n).length) = xs.take n := by
  rw [List.length_take]
  rcases Nat.le_total n xs.length with h | h
  · rw [Nat.min_eq_left h]
  · rw [Nat.min_eq_right h, List.take_length, List.take_of_length_le h]

theorem joinTW_concat (ts : List Token) (wss : List (List Char)) (t : Token)
    (w : List Char) (h : ts.length = wss.length) :
    joinTW (ts ++ [t]) (wss ++ [w]) = joinTW ts wss ++ (t.value ++ w) := by
  unfold joinTW
  rw [List.zipWith_append _ _ _ _ _ h, List.flatten_append]
  simp

theorem getElem?_lt {α : Type} (xs : List α) (n : Nat) (a : α) (h : xs[n]? = some a) :
    n < xs.length := by
  by_contra hc
  rw [List.getElem?_eq_none (by omega)] at h
  exact Option.noConfusion h

theorem wsGo_spec : ∀ (n : Nat) (lexr l : Lexer), Lexer.wsGo n lexr = some l →
    l.pos = lexr.pos ∧ l.parens = lexr.parens ∧ l.input = lexr.input ∧
    l.tokens = lexr.tokens ∧ lexr.cursor ≤ l.cursor ∧ l.cursor < l.input.length ∧
    ∀ c ∈ (lexr.input.drop lexr.cursor).take (l.cursor - lexr.cursor), isSpace c = true := by
  intro n
  induction n with
  | zero =>
    intro lexr l h
    rw [Lexer.wsGo] at h
    split at h
    · exact Option.noConfusion h
    · rename_i c hget
      split at h
      · exact Option.noConfusion h
      · rename_i hsp
        injection h with h2
        subst h2
        refine ⟨rfl, rfl, rfl, rfl, Nat.le_refl _, getElem?_lt _ _ _ hget, ?_⟩
        simp
  | succ m ih =>
    intro lexr l h
    rw [Lexer.wsGo] at h
    split at h
    · exact Option.noConfusion h
    · rename_i c hget
      split at h
      · rename_i hsp
        have hlt : lexr.cursor < lexr.input.length := getElem?_lt _ _ _ hget
        have hx : lexr.next.2 = { lexr with cursor := lexr.cursor + 1 } := next_snd lexr hlt
        rw [hx] at h
        obtain ⟨p1, p2, p3, p4, p5, p6, p7⟩ := ih _ l h
        refine ⟨p1, p2, p3, p4, by simp at p5; omega, p6, ?_⟩
        have hdrop : lexr.input.drop lexr.cursor =
            lexr.input[lexr.cursor] :: lexr.input.drop (lexr.cursor + 1) :=
          List.drop_eq_getElem_cons hlt
        have hc : lexr.input[lexr.cursor] = c := by
          have h2 := hget
          rw [List.getElem?_eq_getElem hlt] at h2
          exact Option.some_injective _ h2
        intro d hd
        rw [hdrop, hc] at hd
        simp only at p5
        have hsub : l.cursor - lexr.cursor = (l.cursor - (lexr.cursor + 1)) + 1 := by omega
        rw [hsub, List.take_succ_cons] at hd
        rcases List.mem_cons.mp hd with rfl | hd2
        · exact hsp
        · exact p7 d (by simpa using hd2)
      · rename_i hsp
        injection h with h2
        subst h2
        refine ⟨rfl, rfl, rfl, rfl, Nat.le_refl _, getElem?_lt _ _ _ hget, ?_⟩
        simp

theorem wsLoop_spec (lexr l : Lexer) (h : Lexer.wsLoop lexr = some l) :
    l.pos = lexr.pos ∧ l.parens = lexr.parens ∧ l.input = lexr.input ∧
    l.tokens = lexr.tokens ∧ lexr.cursor ≤ l.cursor ∧ l.cursor < l.input.length ∧
    ∀ c ∈ (lexr.input.drop lexr.cursor).take (l.cursor - lexr.cursor), isSpace c = true :=
  wsGo_spec _ lexr l h

theorem emit_spec (t : TokenType) (lexr l : Lexer) (h : Lexer.emit t lexr = some l) :
    lexr.pos ≤ lexr.cursor ∧ lexr.cursor ≤ lexr.input.length ∧
    l.input = lexr.input ∧ l.parens = lexr.parens ∧
    l.tokens = lexr.tokens ++
      [⟨(lexr.input.drop lexr.pos).take (lexr.cursor - lexr.pos), lexr.pos, t⟩] ∧
    l.pos = l.cursor ∧ lexr.cursor ≤ l.pos ∧ l.pos ≤ l.input.length ∧
    ∀ c ∈ (lexr.input.drop lexr.cursor).take (l.pos - lexr.cursor), isSpace c = true := by
  rw [Lexer.emit] at h
  split at h
  case isFalse => exact Option.noConfusion h
  case isTrue hg =>
    dsimp only at h
    split at h
    case isFalse hlen =>
      injection h with h2
      subst h2
      refine ⟨hg.1, hg.2, rfl, rfl, rfl, rfl, Nat.le_refl _, hg.2, ?_⟩
      simp
    case isTrue hlen =>
      rw [Lexer.consumeWhitespace, if_pos rfl] at h
      rcases Option.map_eq_some'.mp h with ⟨a, ha, hl⟩
      obtain ⟨p1, p2, p3, p4, p5, p6, p7⟩ := wsLoop_spec _ a ha
      subst hl
      refine ⟨hg.1, hg.2, by simpa using p3, p2, by simpa using p4, rfl, ?_, ?_, ?_⟩
      · simpa using p5
      · simp only [Lexer.ignore]
        simp only at p3
        omega
      · intro c hc
        refine p7 c ?_
        simpa using hc

theorem emit_take (t : TokenType) (lexr l : Lexer) (h : Lexer.emit t lexr = some l) :
    lexr.input.take l.pos =
      lexr.input.take lexr.pos ++
        (lexr.input.drop lexr.pos).take (lexr.cursor - lexr.pos) ++
        (lexr.input.drop lexr.cursor).take (l.pos - lexr.cursor) := by
  obtain ⟨h1, _, _, _, _, _, h7, _, _⟩ := emit_spec t lexr l h
  exact take_split3 lexr.input lexr.pos lexr.cursor l.pos h1 h7

theorem inv_emit (input : List Char) (t : TokenType) (lexr l : Lexer)
    (hInv : Inv input lexr) (hET : t ≠ TokenType.eof) (hER : t ≠ TokenType.error)
    (h : Lexer.emit t lexr = some l) : Inv input l := by
  obtain ⟨hin, htoks, wss, hlen, hws, hjoin⟩ := hInv
  obtain ⟨h1, h2, h3, h4, h5, h6, h7, h8, h9⟩ := emit_spec t lexr l h
  have htake := emit_take t lexr l h
  subst hin
  refine ⟨h3, ?_, ?_⟩
  · intro u hu
    rw [h5] at hu
    rcases List.mem_append.mp hu with hu1 | hu2
    · exact htoks u hu1
    · rw [List.mem_singleton.mp hu2]
      exact ⟨hET, hER, (take_take_length _ _).symm⟩
  · refine ⟨wss ++ [(lexr.input.drop lexr.cursor).take (l.pos - lexr.cursor)], ?_, ?_, ?_⟩
    · rw [h5]
      simp [hlen]
    · intro w hw
      rcases List.mem_append.mp hw with hw1 | hw2
      · exact hws w hw1
      · rw [List.mem_singleton.mp hw2]
        exact h9
    · rw [h5, joinTW_concat _ _ _ _ hlen.symm, ← hjoin, ← List.append_assoc]
      exact htake

theorem step_cont_inv (input : List Char) (st : LState) (lexr : Lexer)
    (st2 : LState) (l : Lexer) (hInv : Inv input lexr)
    (h : step st lexr = .cont st2 l) : Inv input l := by
  cases st
  case data =>
    change lexData lexr = .cont st2 l at h
    unfold lexData at h
    split at h
    · split at h
      · split at h
        · exact StepRes.noConfusion h
        · rename_i heq
          injection h with _ h2
          subst h2
          exact inv_emit _ _ _ _ hInv (by decide) (by decide) heq
      · injection h with _ h2
        subst h2
        exact hInv
    · split at h
      · split at h
        · split at h
          · exact StepRes.noConfusion h
          · rename_i heq
            injection h with _ h2
            subst h2
            exact inv_emit _ _ _ _ hInv (by decide) (by decide) heq
        · injection h with _ h2
          subst h2
          exact hInv
      · split at h
        · rename_i l2 heq
          injection h with _ h2
          subst h2
          have := inv_next input lexr hInv
          rw [heq] at this
          exact this
        · rename_i l2 heq
          split at h
          · exact StepRes.noConfusion h
          · split at h
            · exact StepRes.noConfusion h
            · exact StepRes.noConfusion h
  case expression =>
    change lexExpression lexr = .cont st2 l at h
    unfold lexExpression at h
    split at h
    · exact StepRes.noConfusion h
    · split at h
      · split at h
        · exact StepRes.noConfusion h
        · injection h with _ h2
          subst h2
          exact hInv
      · split at h
        · split at h
          · exact StepRes.noConfusion h
          · injection h with _ h2
            subst h2
            exact hInv
        · split at h
          · injection h with _ h2
            subst h2
            exact hInv
          · split at h
            · injection h with _ h2
              subst h2
              exact hInv
            · split at h
              · injection h with _ h2
                subst h2
                exact hInv
              · split at h
                · injection h with _ h2
                  subst h2
                  exact hInv
                · split at h
                  · injection h with _ h2
                    subst h2
                    exact hInv
                  · split at h
                    · injection h with _ h2
                      subst h2
                      exact hInv
                    · split at h
                      · injection h with _ h2
                        subst h2
                        exact hInv
                      · exact StepRes.noConfusion h
  case number =>
    change lexNumber lexr = .cont st2 l at h
    unfold lexNumber at h
    dsimp only at h
    split at h
    · injection h with _ h2
      subst h2
      exact inv_next input lexr hInv
    · split at h
      · exact StepRes.noConfusion h
      · rename_i heq
        injection h with _ h2
        subst h2
        exact inv_emit _ _ _ _ (inv_next input lexr hInv) (by decide) (by decide) heq
  case operator =>
    change lexOperator lexr = .cont st2 l at h
    unfold lexOperator at h
    split at h
    · exact StepRes.noConfusion h
    · rename_i heq
      injection h with _ h2
      subst h2
      exact inv_emit _ _ _ _ (inv_next input lexr hInv) (by decide) (by decide) heq
  case punctuation =>
    change lexPunctuation lexr = .cont st2 l at h
    unfold lexPunctuation at h
    split at h
    · exact StepRes.noConfusion h
    · rename_i heq
      injection h with _ h2
      subst h2
      exact inv_emit _ _ _ _ (inv_next input lexr hInv) (by decide) (by decide) heq
  case strLit =>
    change lexString lexr = .cont st2 l at h
    unfold lexString at h
    split at h
    · exact StepRes.noConfusion h
    · rename_i l2 heq2
      split at h
      · exact StepRes.noConfusion h
      · rename_i i hqi
        split at h
        · exact StepRes.noConfusion h
        · rename_i l4 heq4
          split at h
          · exact StepRes.noConfusion h
          · rename_i l6 heq6
            injection h with _ h2
            subst h2
            have i2 : Inv input l2 :=
              inv_emit _ _ _ _ (inv_next input lexr hInv) (by decide) (by decide) heq2
            have i4 : Inv input l4 :=
              inv_emit _ _ _ _ (inv_set_cursor input l2 _ i2) (by decide) (by decide) heq4
            exact inv_emit _ _ _ _ (inv_next input l4 i4) (by decide) (by decide) heq6
  case openParens =>
    change lexOpenParens lexr = .cont st2 l at h
    unfold lexOpenParens at h
    split at h
    · exact StepRes.noConfusion h
    · split at h
      · split at h
        · exact StepRes.noConfusion h
        · rename_i heq
          injection h with _ h2
          subst h2
          exact inv_set_parens input _ _
            (inv_emit _ _ _ _ (inv_next input lexr hInv) (by decide) (by decide) heq)
      · split at h
        · split at h
          · exact StepRes.noConfusion h
          · rename_i heq
            injection h with _ h2
            subst h2
            exact inv_set_parens input _ _
              (inv_emit _ _ _ _ (inv_next input lexr hInv) (by decide) (by decide) heq)
        · split at h
          · split at h
            · exact StepRes.noConfusion h
            · rename_i heq
              injection h with _ h2
              subst h2
              exact inv_set_parens input _ _
                (inv_emit _ _ _ _ (inv_next input lexr hInv) (by decide) (by decide) heq)
          · exact StepRes.noConfusion h
  case closeParens =>
    change lexCloseParens lexr = .cont st2 l at h
    unfold lexCloseParens at h
    split at h
    · exact StepRes.noConfusion h
    · split at h
      · split at h
        · exact StepRes.noConfusion h
        · rename_i heq
          injection h with _ h2
          subst h2
          exact inv_set_parens input _ _
            (inv_emit _ _ _ _ (inv_next input lexr hInv) (by decide) (by decide) heq)
      · split at h
        · split at h
          · exact StepRes.noConfusion h
          · rename_i heq
            injection h with _ h2
            subst h2
            exact inv_set_parens input _ _
              (inv_emit _ _ _ _ (inv_next input lexr hInv) (by decide) (by decide) heq)
        · split at h
          · split at h
            · exact StepRes.noConfusion h
            · rename_i heq
              injection h with _ h2
              subst h2
              exact inv_set_parens input _ _
                (inv_emit _ _ _ _ (inv_next input lexr hInv) (by decide) (by decide) heq)
          · exact StepRes.noConfusion h
  case nameTok =>
    change lexName lexr = .cont st2 l at h
    unfold lexName at h
    split at h
    · exact StepRes.noConfusion h
    · split at h
      · injection h with _ h2
        subst h2
        exact inv_next input lexr hInv
      · split at h
        · exact StepRes.noConfusion h
        · rename_i heq
          injection h with _ h2
          subst h2
          exact inv_emit _ _ _ _ hInv (by decide) (by decide) heq
  case tagOpen =>
    change lexTagOpen lexr = .cont st2 l at h
    unfold lexTagOpen at h
    split at h
    · exact StepRes.noConfusion h
    · rename_i heq
      injection h with _ h2
      subst h2
      exact inv_emit _ _ _ _ (inv_set_cursor input lexr _ hInv) (by decide) (by decide) heq
  case tagName =>
    change lexTagName lexr = .cont st2 l at h
    unfold lexTagName at h
    dsimp only at h
    split at h
    · injection h with _ h2
      subst h2
      exact inv_next input lexr hInv
    · split at h
      · exact StepRes.noConfusion h
      · rename_i heq
        injection h with _ h2
        subst h2
        exact inv_emit _ _ _ _ (inv_next input lexr hInv) (by decide) (by decide) heq
  case tagClose =>
    change lexTagClose lexr = .cont st2 l at h
    unfold lexTagClose at h
    split at h
    · exact StepRes.noConfusion h
    · split at h
      · exact StepRes.noConfusion h
      · rename_i heq
        injection h with _ h2
        subst h2
        exact inv_emit _ _ _ _ (inv_set_cursor input lexr _ hInv) (by decide) (by decide) heq
  case printOpen =>
    change lexPrintOpen lexr = .cont st2 l at h
    unfold lexPrintOpen at h
    split at h
    · exact StepRes.noConfusion h
    · rename_i heq
      injection h with _ h2
      subst h2
      exact inv_emit _ _ _ _ (inv_set_cursor input lexr _ hInv) (by decide) (by decide) heq
  case printClose =>
    change lexPrintClose lexr = .cont st2 l at h
    unfold lexPrintClose at h
    split at h
    · exact StepRes.noConfusion h
    · split at h
      · exact StepRes.noConfusion h
      · rename_i heq
        injection h with _ h2
        subst h2
        exact inv_emit _ _ _ _ (inv_set_cursor input lexr _ hInv) (by decide) (by decide) heq

theorem next_none (lexr l2 : Lexer) (h : lexr.next = (none, l2)) :
    l2.input = lexr.input ∧ l2.pos = lexr.pos ∧ l2.parens = lexr.parens ∧
    l2.tokens = lexr.tokens ∧ lexr.input.length ≤ l2.cursor := by
  unfold Lexer.next at h
  split at h
  case isTrue hge =>
    injection h with _ h2
    subst h2
    exact ⟨rfl, rfl, rfl, rfl, by omega⟩
  case isFalse hge =>
    dsimp only at h
    split at h
    case isTrue hc1 =>
      injection h with _ h2
      subst h2
      exact ⟨rfl, rfl, rfl, rfl, by simp; omega⟩
    case isFalse hc1 =>
      exfalso
      injection h with h1 _
      simp only [Lexer.current, List.getElem?_eq_none_iff] at h1
      omega

theorem emit_wsjoin (input : List Char) (t : TokenType) (lexr l : Lexer)
    (hin : lexr.input = input)
    (hwj : ∃ wss : List (List Char), wss.length = lexr.tokens.length ∧
      (∀ w ∈ wss, ∀ c ∈ w, isSpace c = true) ∧
      input.take lexr.pos = joinTW lexr.tokens wss)
    (h : Lexer.emit t lexr = some l) :
    ∃ wss : List (List Char), wss.length = l.tokens.length ∧
      (∀ w ∈ wss, ∀ c ∈ w, isSpace c = true) ∧
      input.take l.pos = joinTW l.tokens wss := by
  obtain ⟨wss, hlen, hws, hjoin⟩ := hwj
  obtain ⟨h1, h2, h3, h4, h5, h6, h7, h8, h9⟩ := emit_spec t lexr l h
  have htake := emit_take t lexr l h
  subst hin
  refine ⟨wss ++ [(lexr.input.drop lexr.cursor).take (l.pos - lexr.cursor)], ?_, ?_, ?_⟩
  · rw [h5]
    simp [hlen]
  · intro w hw
    rcases List.mem_append.mp hw with hw1 | hw2
    · exact hws w hw1
    · rw [List.mem_singleton.mp hw2]
      exact h9
  · rw [h5, joinTW_concat _ _ _ _ hlen.symm, ← hjoin, ← List.append_assoc]
    exact htake

theorem step_halt_final (input : List Char) (st : LState) (lexr l : Lexer)
    (hInv : Inv input lexr) (h : step st lexr = .halt l) : FinalOk input l.tokens := by
  cases st
  case data =>
    change lexData lexr = .halt l at h
    unfold lexData at h
    split at h
    · split at h
      · split at h
        · exact StepRes.noConfusion h
        · exact StepRes.noConfusion h
      · exact StepRes.noConfusion h
    · split at h
      · split at h
        · split at h
          · exact StepRes.noConfusion h
          · exact StepRes.noConfusion h
        · exact StepRes.noConfusion h
      · split at h
        · exact StepRes.noConfusion h
        · rename_i l2 heq
          split at h
          · exact StepRes.noConfusion h
          · rename_i l3 heq3
            split at h
            · exact StepRes.noConfusion h
            · rename_i l4 heq4
              injection h with h2
              subst h2
              -- facts about l2 (result of the failed next)
              obtain ⟨n1, n2, n3, n4, n5⟩ := next_none lexr l2 heq
              have hInv2 : Inv input l2 := by
                have := inv_next input lexr hInv
                rw [heq] at this
                exact this
              -- facts about l3 (after the optional trailing-text emission)
              have hq1 : l2.input.length = lexr.input.length := by rw [n1]
              have hInv3 : Inv input l3 ∧ l3.cursor = l3.input.length ∧ l3.pos ≤ l3.cursor := by
                split at heq3
                · rename_i hplt
                  obtain ⟨e1, e2, e3, e4, e5, e6, e7, e8, e9⟩ := emit_spec .text l2 l3 heq3
                  have hq2 : l3.input.length = l2.input.length := by rw [e3]
                  exact ⟨inv_emit _ _ _ _ hInv2 (by decide) (by decide) heq3, by omega, by omega⟩
                · rename_i hple
                  have h3eq : l3 = l2 := by
                    injection heq3 with x
                    exact x.symm
                  obtain ⟨f1, f2, _, _, _, _, _, _, _⟩ := emit_spec .eof l3 l4 heq4
                  rw [h3eq] at f1 f2 ⊢
                  exact ⟨hInv2, by omega, f1⟩
              obtain ⟨hInv3, hc3, hp3⟩ := hInv3
              obtain ⟨g1, g2, g3, g4, g5, g6, g7, g8, g9⟩ := emit_spec .eof l3 l4 heq4
              have hpos4 : l4.pos = l4.input.length := by
                have hq3 : l4.input.length = l3.input.length := by rw [g3]
                omega
              obtain ⟨hin3, htoks3, hwj3⟩ := hInv3
              have hwj4 := emit_wsjoin input .eof l3 l4 hin3 hwj3 heq4
              refine ⟨l3.tokens, _, g5, htoks3, Or.inr ⟨rfl, ?_, ?_⟩⟩
              · dsimp only
                rw [← hin3]
                exact (take_take_length _ _).symm
              · obtain ⟨wss4, w1, w2, w3⟩ := hwj4
                refine ⟨wss4, w1, w2, ?_⟩
                rw [← w3, hpos4, g3, hin3]
                exact (List.take_length input).symm
  case expression =>
    change lexExpression lexr = .halt l at h
    unfold lexExpression at h
    split at h
    · exact StepRes.noConfusion h
    · split at h
      · split at h
        · exact StepRes.noConfusion h
        · exact StepRes.noConfusion h
      · split at h
        · split at h
          · exact StepRes.noConfusion h
          · exact StepRes.noConfusion h
        · split at h
          · exact StepRes.noConfusion h
          · split at h
            · exact StepRes.noConfusion h
            · split at h
              · exact StepRes.noConfusion h
              · split at h
                · exact StepRes.noConfusion h
                · split at h
                  · exact StepRes.noConfusion h
                  · split at h
                    · exact StepRes.noConfusion h
                    · split at h
                      · exact StepRes.noConfusion h
                      · exact StepRes.noConfusion h
  case number =>
    change lexNumber lexr = .halt l at h
    unfold lexNumber at h
    dsimp only at h
    split at h
    · exact StepRes.noConfusion h
    · split at h
      · exact StepRes.noConfusion h
      · exact StepRes.noConfusion h
  case operator =>
    change lexOperator lexr = .halt l at h
    unfold lexOperator at h
    split at h
    · exact StepRes.noConfusion h
    · exact StepRes.noConfusion h
  case punctuation =>
    change lexPunctuation lexr = .halt l at h
    unfold lexPunctuation at h
    split at h
    · exact StepRes.noConfusion h
    · exact StepRes.noConfusion h
  case strLit =>
    change lexString lexr = .halt l at h
    unfold lexString at h
    split at h
    · exact StepRes.noConfusion h
    · rename_i l2 heq2
      split at h
      · injection h with h2
        subst h2
        have hInv2 : Inv input l2 :=
          inv_emit _ _ _ _ (inv_next input lexr hInv) (by decide) (by decide) heq2
        obtain ⟨hin2, htoks2, _⟩ := hInv2
        exact ⟨l2.tokens, _, rfl, htoks2, Or.inl rfl⟩
      · split at h
        · exact StepRes.noConfusion h
        · split at h
          · exact StepRes.noConfusion h
          · exact StepRes.noConfusion h
  case openParens =>
    change lexOpenParens lexr = .halt l at h
    unfold lexOpenParens at h
    split at h
    · exact StepRes.noConfusion h
    · split at h
      · split at h
        · exact StepRes.noConfusion h
        · exact StepRes.noConfusion h
      · split at h
        · split at h
          · exact StepRes.noConfusion h
          · exact StepRes.noConfusion h
        · split at h
          · split at h
            · exact StepRes.noConfusion h
            · exact StepRes.noConfusion h
          · exact StepRes.noConfusion h
  case closeParens =>
    change lexCloseParens lexr = .halt l at h
    unfold lexCloseParens at h
    split at h
    · exact StepRes.noConfusion h
    · split at h
      · split at h
        · exact StepRes.noConfusion h
        · exact StepRes.noConfusion h
      · split at h
        · split at h
          · exact StepRes.noConfusion h
          · exact StepRes.noConfusion h
        · split at h
          · split at h
            · exact StepRes.noConfusion h
            · exact StepRes.noConfusion h
          · exact StepRes.noConfusion h
  case nameTok =>
    change lexName lexr = .halt l at h
    unfold lexName at h
    split at h
    · exact StepRes.noConfusion h
    · split at h
      · exact StepRes.noConfusion h
      · split at h
        · exact StepRes.noConfusion h
        · exact StepRes.noConfusion h
  case tagOpen =>
    change lexTagOpen lexr = .halt l at h
    unfold lexTagOpen at h
    split at h
    · exact StepRes.noConfusion h
    · exact StepRes.noConfusion h
  case tagName =>
    change lexTagName lexr = .halt l at h
    unfold lexTagName at h
    dsimp only at h
    split at h
    · exact StepRes.noConfusion h
    · split at h
      · exact StepRes.noConfusion h
      · exact StepRes.noConfusion h
  case tagClose =>
    change lexTagClose lexr = .halt l at h
    unfold lexTagClose at h
    split at h
    · injection h with h2
      subst h2
      obtain ⟨hin, htoks, _⟩ := hInv
      exact ⟨lexr.tokens, _, rfl, htoks, Or.inl rfl⟩
    · split at h
      · exact StepRes.noConfusion h
      · exact StepRes.noConfusion h
  case printOpen =>
    change lexPrintOpen lexr = .halt l at h
    unfold lexPrintOpen at h
    split at h
    · exact StepRes.noConfusion h
    · exact StepRes.noConfusion h
  case printClose =>
    change lexPrintClose lexr = .halt l at h
    unfold lexPrintClose at h
    split at h
    · injection h with h2
      subst h2
      obtain ⟨hin, htoks, _⟩ := hInv
      exact ⟨lexr.tokens, _, rfl, htoks, Or.inl rfl⟩
    · split at h
      · exact StepRes.noConfusion h
      · exact StepRes.noConfusion h

theorem inv_init (input : List Char) : Inv input (initLex input) := by
  refine ⟨rfl, ?_, ⟨[], rfl, ?_, rfl⟩⟩
  · intro t ht
    exact absurd ht (List.not_mem_nil t)
  · intro w hw
    exact absurd hw (List.not_mem_nil w)

theorem run_done_final (input : List Char) :
    ∀ (fuel : Nat) (st : LState) (lexr l : Lexer), Inv input lexr →
      run fuel st lexr = .done l → FinalOk input l.tokens := by
  intro fuel
  induction fuel with
  | zero =>
    intro st lexr l _ h
    exact RunRes.noConfusion h
  | succ n ih =>
    intro st lexr l hInv h
    rw [run] at h
    cases hs : step st lexr with
    | cont st2 l2 =>
      rw [hs] at h
      dsimp only at h
      exact ih st2 l2 l (step_cont_inv input st lexr st2 l2 hInv hs) h
    | halt l2 =>
      rw [hs] at h
      dsimp only at h
      injection h with h2
      subst h2
      exact step_halt_final input st lexr l2 hInv hs
    | crash =>
      rw [hs] at h
      dsimp only at h
      exact RunRes.noConfusion h

/-- C4: every terminating tokenize run returns a stream ending in exactly
one EOF or exactly one error token, which is its last element; no token
of any kind follows an error token (no EOF or error token occurs earlier
in the stream). -/
theorem tokenize_terminator (input : List Char) (fuel : Nat) (l : Lexer)
    (h : lex input fuel = .done l) :
    ∃ ts0 t, l.tokens = ts0 ++ [t] ∧
      (t.tokenType = TokenType.eof ∨ t.tokenType = TokenType.error) ∧
      ∀ u ∈ ts0, u.tokenType ≠ TokenType.eof ∧ u.tokenType ≠ TokenType.error := by
  have h2 : run fuel .data (initLex input) = .done l := h
  obtain ⟨ts0, t, he, hok, hterm⟩ :=
    run_done_final input fuel .data (initLex input) l (inv_init input) h2
  refine ⟨ts0, t, he, ?_, ?_⟩
  · rcases hterm with herr | ⟨heof, _⟩
    · exact Or.inr herr
    · exact Or.inl heof
  · intro u hu
    exact ⟨(hok u hu).1, (hok u hu).2.1⟩

/-- C5: on a run that terminates without error, the token values
interleaved, in emission order, with the whitespace runs discarded after
each emission reassemble the source exactly. -/
theorem tokenize_reassembles (input : List Char) (fuel : Nat) (l : Lexer)
    (h : lex input fuel = .done l)
    (hne : ∀ t ∈ l.tokens, t.tokenType ≠ TokenType.error) :
    ∃ wss : List (List Char), wss.length = l.tokens.length ∧
      (∀ w ∈ wss, ∀ c ∈ w, isSpace c = true) ∧ input = joinTW l.tokens wss := by
  have h2 : run fuel .data (initLex input) = .done l := h
  obtain ⟨ts0, t, he, hok, hterm⟩ :=
    run_done_final input fuel .data (initLex input) l (inv_init input) h2
  rcases hterm with herr | ⟨_, _, hwss⟩
  · exfalso
    refine hne t ?_ herr
    rw [he]
    exact List.mem_append_right _ (List.mem_singleton_self t)
  · exact hwss

/-- C10: in any terminating tokenize run, every token that is not an
error token has as value exactly the source substring starting at its
recorded position, of the value's length. -/
theorem tokenize_values_are_source (input : List Char) (fuel : Nat) (l : Lexer)
    (h : lex input fuel = .done l) :
    ∀ t ∈ l.tokens, t.tokenType ≠ TokenType.error →
      t.value = (input.drop t.pos).take t.value.length := by
  have h2 : run fuel .data (initLex input) = .done l := h
  obtain ⟨ts0, t0, he, hok, hterm⟩ :=
    run_done_final input fuel .data (initLex input) l (inv_init input) h2
  intro t ht hne
  rw [he] at ht
  rcases List.mem_append.mp ht with h1 | h1
  · exact (hok t h1).2.2
  · rw [List.mem_singleton.mp h1] at hne ⊢
    rcases hterm with herr | ⟨_, hval, _⟩
    · exact absurd herr hne
    · exact hval

/-- The final lexer record of the terminating run on the print example. -/
def exPrintDone : Lexer :=
  { pos := 7, cursor := 7, parens := 0, input := "\x7b\x7b 1 \x7d\x7d".toList,
    tokens := [⟨"\x7b\x7b".toList, 0, .printOpen⟩, ⟨"1".toList, 3, .number⟩,
      ⟨"\x7d\x7d".toList, 5, .printClose⟩, ⟨[], 7, .eof⟩] }

theorem tokenize_terminator_witness :
    ∃ ts0 t, exPrintDone.tokens = ts0 ++ [t] ∧
      (t.tokenType = TokenType.eof ∨ t.tokenType = TokenType.error) ∧
      ∀ u ∈ ts0, u.tokenType ≠ TokenType.eof ∧ u.tokenType ≠ TokenType.error :=
  tokenize_terminator ("\x7b\x7b 1 \x7d\x7d".toList) 20 exPrintDone (by decide)

theorem tokenize_reassembles_witness :
    ∃ wss : List (List Char), wss.length = exPrintDone.tokens.length ∧
      (∀ w ∈ wss, ∀ c ∈ w, isSpace c = true) ∧
      "\x7b\x7b 1 \x7d\x7d".toList = joinTW exPrintDone.tokens wss :=
  tokenize_reassembles ("\x7b\x7b 1 \x7d\x7d".toList) 20 exPrintDone (by decide) (by decide)

theorem tokenize_values_are_source_witness :
    (⟨"1".toList, 3, TokenType.number⟩ : Token).value =
      (("\x7b\x7b 1 \x7d\x7d".toList).drop 3).take 1 :=
  tokenize_values_are_source ("\x7b\x7b 1 \x7d\x7d".toList) 20 exPrintDone (by decide)
    ⟨"1".toList, 3, TokenType.number⟩ (by decide) (by decide)

end Stick
namespace Stick

theorem emit_no_ws (t : TokenType) (lexr : Lexer)
    (hg : lexr.pos ≤ lexr.cursor ∧ lexr.cursor ≤ lexr.input.length)
    (hge : ¬ lexr.cursor < lexr.input.length) :
    Lexer.emit t lexr = some
      { lexr with
        tokens := lexr.tokens ++
          [⟨(lexr.input.drop lexr.pos).take (lexr.cursor - lexr.pos), lexr.pos, t⟩],
        pos := lexr.cursor } := by
  rw [Lexer.emit, if_pos hg]
  dsimp only
  rw [if_neg hge]

theorem lexData_scan (n : Nat) : ∀ lexr : Lexer, lexr.input.length - lexr.cursor = n →
    (∀ i, lexr.cursor ≤ i →
      delimOpenTag.isPrefixOf (lexr.input.drop i) = false ∧
      delimOpenPrint.isPrefixOf (lexr.input.drop i) = false) →
    lexr.cursor ≤ lexr.input.length → lexr.pos ≤ lexr.cursor →
    run (n + 1) .data lexr = .done
      { pos := lexr.input.length, cursor := lexr.input.length, parens := lexr.parens,
        input := lexr.input,
        tokens := lexr.tokens ++
          (if lexr.pos < lexr.input.length then
            [⟨lexr.input.drop lexr.pos, lexr.pos, .text⟩] else []) ++
          [⟨[], lexr.input.length, .eof⟩] } := by
  induction n with
  | zero =>
    intro lexr hn hnd hc hp
    have hcl : lexr.cursor = lexr.input.length := by omega
    rw [run]
    have hstep : step .data lexr = .halt
        { pos := lexr.input.length, cursor := lexr.input.length, parens := lexr.parens,
          input := lexr.input,
          tokens := lexr.tokens ++
            (if lexr.pos < lexr.input.length then
              [⟨lexr.input.drop lexr.pos, lexr.pos, .text⟩] else []) ++
            [⟨[], lexr.input.length, .eof⟩] } := by
      show lexData lexr = _
      unfold lexData
      rw [(hnd lexr.cursor (Nat.le_refl _)).1, (hnd lexr.cursor (Nat.le_refl _)).2]
      simp only [Bool.false_eq_true, if_false]
      rw [next_ge lexr (by omega)]
      dsimp only
      by_cases hpl : lexr.pos < lexr.cursor
      · rw [if_pos hpl, emit_no_ws .text lexr ⟨by omega, by omega⟩ (by omega)]
        dsimp only
        rw [emit_no_ws .eof _ ⟨by dsimp only; omega, by dsimp only; omega⟩ (by dsimp only; omega)]
        dsimp only
        rw [if_pos (by omega : lexr.pos < lexr.input.length)]
        simp only [StepRes.halt.injEq, Lexer.mk.injEq]
        refine ⟨hcl, hcl, trivial, trivial, ?_⟩
        rw [hcl]
        simp [List.take_of_length_le, List.length_drop]
      · rw [if_neg hpl]
        dsimp only
        rw [emit_no_ws .eof lexr ⟨by omega, by omega⟩ (by omega)]
        dsimp only
        have hpe : lexr.pos = lexr.input.length := by omega
        rw [if_neg (by omega : ¬ lexr.pos < lexr.input.length)]
        simp only [StepRes.halt.injEq, Lexer.mk.injEq]
        refine ⟨hcl, hcl, trivial, trivial, ?_⟩
        rw [hcl]
        simp
        omega
    rw [hstep]
  | succ m ih =>
    intro lexr hn hnd hc hp
    have hlt : lexr.cursor < lexr.input.length := by omega
    rw [run]
    by_cases hA : lexr.cursor + 1 = lexr.input.length
    · -- the scan reaches end of input in this very iteration
      have hnx : lexr.next = (none, { lexr with cursor := lexr.cursor + 1 }) := by
        rw [Lexer.next, if_neg (by omega)]
        dsimp only
        rw [if_pos hA]
      have hstep : step .data lexr = .halt
          { pos := lexr.input.length, cursor := lexr.input.length, parens := lexr.parens,
            input := lexr.input,
            tokens := lexr.tokens ++
              [⟨lexr.input.drop lexr.pos, lexr.pos, .text⟩] ++
              [⟨[], lexr.input.length, .eof⟩] } := by
        show lexData lexr = _
        unfold lexData
        rw [(hnd lexr.cursor (Nat.le_refl _)).1, (hnd lexr.cursor (Nat.le_refl _)).2]
        simp only [Bool.false_eq_true, if_false]
        rw [hnx]
        dsimp only
        rw [if_pos (by dsimp only; omega : ({ lexr with cursor := lexr.cursor + 1 } : Lexer).pos <
          ({ lexr with cursor := lexr.cursor + 1 } : Lexer).cursor)]
        rw [emit_no_ws .text _ ⟨by dsimp only; omega, by dsimp only; omega⟩ (by dsimp only; omega)]
        dsimp only
        rw [emit_no_ws .eof _ ⟨by dsimp only; omega, by dsimp only; omega⟩ (by dsimp only; omega)]
        dsimp only
        simp only [StepRes.halt.injEq, Lexer.mk.injEq]
        refine ⟨hA, hA, trivial, trivial, ?_⟩
        rw [hA]
        simp [List.take_of_length_le, List.length_drop]
      rw [hstep]
      dsimp only
      rw [if_pos (by omega : lexr.pos < lexr.input.length)]
    · -- the scan continues
      have hlt2 : lexr.cursor + 1 < lexr.input.length := by omega
      have hnx : lexr.next =
          (lexr.input[lexr.cursor + 1]?, { lexr with cursor := lexr.cursor + 1 }) := by
        rw [Lexer.next, if_neg (by omega)]
        dsimp only
        rw [if_neg hA]
        rfl
      have hsome : lexr.input[lexr.cursor + 1]? = some lexr.input[lexr.cursor + 1] :=
        List.getElem?_eq_getElem hlt2
      have hstep : step .data lexr = .cont .data { lexr with cursor := lexr.cursor + 1 } := by
        show lexData lexr = _
        unfold lexData
        rw [(hnd lexr.cursor (Nat.le_refl _)).1, (hnd lexr.cursor (Nat.le_refl _)).2]
        simp only [Bool.false_eq_true, if_false]
        rw [hnx, hsome]
      rw [hstep]
      dsimp only
      exact ih { lexr with cursor := lexr.cursor + 1 } (by dsimp only; omega)
        (fun i hi => hnd i (by dsimp only at hi; omega)) (by dsimp only; omega)
        (by dsimp only; omega)

/-- C6 (amended): tokenizing a nonempty input that contains neither the
tag-open nor the print-open delimiter yields exactly one Text token
carrying the whole input, followed by exactly one EOF token. -/
theorem tokenize_no_delims (input : List Char) (hne : input ≠ [])
    (hnd : ∀ i < input.length,
      delimOpenTag.isPrefixOf (input.drop i) = false ∧
      delimOpenPrint.isPrefixOf (input.drop i) = false) :
    lex input (input.length + 1) = .done
      { pos := input.length, cursor := input.length, parens := 0, input := input,
        tokens := [⟨input, 0, .text⟩, ⟨[], input.length, .eof⟩] } := by
  have hnd2 : ∀ i, (initLex input).cursor ≤ i →
      delimOpenTag.isPrefixOf ((initLex input).input.drop i) = false ∧
      delimOpenPrint.isPrefixOf ((initLex input).input.drop i) = false := by
    intro i _
    rcases Nat.lt_or_ge i input.length with hlt | hge
    · exact hnd i hlt
    · rw [show (initLex input).input = input from rfl, List.drop_eq_nil_of_le hge]
      exact ⟨by decide, by decide⟩
  have hrun := lexData_scan input.length (initLex input) (by simp [initLex]) hnd2
    (by simp [initLex]) (by simp [initLex])
  have hpos : (0 : Nat) < input.length := List.length_pos.mpr hne
  rw [show lex input (input.length + 1) =
    run (input.length + 1) .data (initLex input) from rfl, hrun]
  simp [initLex, hpos]

/-- C6 (counterexample to the claim as stated): the empty input contains
no delimiter, yet its token stream is a single EOF token with no Text
token at all. -/
theorem tokenize_empty_input :
    lex [] 1 = .done ⟨0, 0, 0, [], [⟨[], 0, .eof⟩]⟩ ∧
    (([⟨[], 0, TokenType.eof⟩] : List Token).filter
      (fun t => t.tokenType == TokenType.text)).length = 0 :=
  ⟨rfl, rfl⟩

/-- Witness of `tokenize_no_delims` at the input "abc". -/
theorem tokenize_no_delims_witness :
    lex ("abc".toList) 4 = .done
      { pos := 3, cursor := 3, parens := 0, input := "abc".toList,
        tokens := [⟨"abc".toList, 0, .text⟩, ⟨[], 3, .eof⟩] } :=
  tokenize_no_delims ("abc".toList) (by decide) (by decide)

end Stick
namespace Stick

theorem lexNumber_self_loop (lexr : Lexer) (h : lexr.input.length ≤ lexr.cursor) :
    step .number lexr = .cont .number lexr := by
  show lexNumber lexr = _
  unfold lexNumber
  dsimp only
  rw [next_ge lexr h]
  rfl

theorem run_number_eof (fuel : Nat) : ∀ lexr : Lexer, lexr.input.length ≤ lexr.cursor →
    run fuel .number lexr = .outOfFuel := by
  induction fuel with
  | zero =>
    intro lexr _
    rfl
  | succ n ih =>
    intro lexr h
    rw [run, lexNumber_self_loop lexr h]
    exact ih lexr h

/-- C1: the lexer does NOT terminate on every input.  On the input
consisting of a print-open delimiter followed by a digit at end of
input, the number loop calls next at end of input forever: next returns
the empty string and isNumeric of the empty string is vacuously true, so
the loop never breaks.  No amount of fuel makes tokenize return. -/
theorem tokenize_nonterminating :
    ∀ fuel : Nat, lex ("\x7b\x7b 1".toList) fuel = .outOfFuel := by
  intro fuel
  match fuel with
  | 0 => rfl
  | 1 => rfl
  | 2 => rfl
  | 3 => rfl
  | (n + 4) =>
    show run (n + 4) .data (initLex ("\x7b\x7b 1".toList)) = .outOfFuel
    have h4 : run (n + 4) .data (initLex ("\x7b\x7b 1".toList)) =
        run n .number ⟨3, 4, 0, "\x7b\x7b 1".toList, [⟨"\x7b\x7b".toList, 0, .printOpen⟩]⟩ :=
      rfl
    rw [h4]
    exact run_number_eof n _ (by decide)

theorem run_step_cont (fuel : Nat) (st : LState) (lexr : Lexer) (st2 : LState) (l2 : Lexer)
    (h : step st lexr = .cont st2 l2) : run (fuel + 1) st lexr = run fuel st2 l2 := by
  rw [run, h]

theorem run_step_halt (fuel : Nat) (st : LState) (lexr : Lexer) (l2 : Lexer)
    (h : step st lexr = .halt l2) : run (fuel + 1) st lexr = .done l2 := by
  rw [run, h]

theorem advance_step (n : Nat) (st : LState) (lexr : Lexer) (st2 : LState) (l2 : Lexer)
    (h : step st lexr = .cont st2 l2) : advance (n + 1) st lexr = advance n st2 l2 := by
  rw [advance, h]

/-- C2 (amended): whenever a tag-close or print-close state is reached
with a POSITIVE bracket counter, the lexer appends the single
"unclosed parenthesis" error token and halts immediately; the example
with the unclosed parenthesis errors while the balanced one tokenizes
without error. -/
theorem close_with_open_parens_errors :
    (∀ (lexr : Lexer) (fuel : Nat), 0 < lexr.parens →
      run (fuel + 1) .printClose lexr =
        .done (Lexer.errorf ("unclosed parenthesis".toList) lexr) ∧
      run (fuel + 1) .tagClose lexr =
        .done (Lexer.errorf ("unclosed parenthesis".toList) lexr) ∧
      (Lexer.errorf ("unclosed parenthesis".toList) lexr).tokens =
        lexr.tokens ++ [⟨"unclosed parenthesis".toList, lexr.pos, .error⟩]) ∧
    lex ("\x7b\x7b (1+2 \x7d\x7d".toList) 12 = .done
      ⟨8, 8, 1, "\x7b\x7b (1+2 \x7d\x7d".toList,
      [⟨"\x7b\x7b".toList, 0, .printOpen⟩,
       ⟨"(".toList, 3, .parensOpen⟩,
       ⟨"1".toList, 4, .number⟩,
       ⟨"+".toList, 5, .operator⟩,
       ⟨"2".toList, 6, .number⟩,
       ⟨"unclosed parenthesis".toList, 8, .error⟩]⟩ ∧
    lex ("\x7b\x7b (1+2) \x7d\x7d".toList) 15 = .done
      ⟨11, 11, 0, "\x7b\x7b (1+2) \x7d\x7d".toList,
      [⟨"\x7b\x7b".toList, 0, .printOpen⟩,
       ⟨"(".toList, 3, .parensOpen⟩,
       ⟨"1".toList, 4, .number⟩,
       ⟨"+".toList, 5, .operator⟩,
       ⟨"2".toList, 6, .number⟩,
       ⟨")".toList, 7, .parensClose⟩,
       ⟨"\x7d\x7d".toList, 9, .printClose⟩,
       ⟨[], 11, .eof⟩]⟩ ∧
    ((⟨11, 11, 0, "\x7b\x7b (1+2) \x7d\x7d".toList,
      [⟨"\x7b\x7b".toList, 0, .printOpen⟩,
       ⟨"(".toList, 3, .parensOpen⟩,
       ⟨"1".toList, 4, .number⟩,
       ⟨"+".toList, 5, .operator⟩,
       ⟨"2".toList, 6, .number⟩,
       ⟨")".toList, 7, .parensClose⟩,
       ⟨"\x7d\x7d".toList, 9, .printClose⟩,
       ⟨[], 11, .eof⟩]⟩ : Lexer).tokens.filter
        (fun t => t.tokenType == TokenType.error)).length = 0 := by
  have a0 : step .data
      (⟨0, 0, 0, "\x7b\x7b (1+2 \x7d\x7d".toList,
      []⟩ : Lexer) =
      .cont .printOpen ⟨0, 0, 0, "\x7b\x7b (1+2 \x7d\x7d".toList,
      []⟩ := by decide
  have a1 : step .printOpen
      (⟨0, 0, 0, "\x7b\x7b (1+2 \x7d\x7d".toList,
      []⟩ : Lexer) =
      .cont .expression ⟨3, 3, 0, "\x7b\x7b (1+2 \x7d\x7d".toList,
      [⟨"\x7b\x7b".toList, 0, .printOpen⟩]⟩ := by decide
  have a2 : step .expression
      (⟨3, 3, 0, "\x7b\x7b (1+2 \x7d\x7d".toList,
      [⟨"\x7b\x7b".toList, 0, .printOpen⟩]⟩ : Lexer) =
      .cont .openParens ⟨3, 3, 0, "\x7b\x7b (1+2 \x7d\x7d".toList,
      [⟨"\x7b\x7b".toList, 0, .printOpen⟩]⟩ := by decide
  have a3 : step .openParens
      (⟨3, 3, 0, "\x7b\x7b (1+2 \x7d\x7d".toList,
      [⟨"\x7b\x7b".toList, 0, .printOpen⟩]⟩ : Lexer) =
      .cont .expression ⟨4, 4, 1, "\x7b\x7b (1+2 \x7d\x7d".toList,
      [⟨"\x7b\x7b".toList, 0, .printOpen⟩,
       ⟨"(".toList, 3, .parensOpen⟩]⟩ := by decide
  have a4 : step .expression
      (⟨4, 4, 1, "\x7b\x7b (1+2 \x7d\x7d".toList,
      [⟨"\x7b\x7b".toList, 0, .printOpen⟩,
       ⟨"(".toList, 3, .parensOpen⟩]⟩ : Lexer) =
      .cont .number ⟨4, 4, 1, "\x7b\x7b (1+2 \x7d\x7d".toList,
      [⟨"\x7b\x7b".toList, 0, .printOpen⟩,
       ⟨"(".toList, 3, .parensOpen⟩]⟩ := by decide
  have a5 : step .number
      (⟨4, 4, 1, "\x7b\x7b (1+2 \x7d\x7d".toList,
      [⟨"\x7b\x7b".toList, 0, .printOpen⟩,
       ⟨"(".toList, 3, .parensOpen⟩]⟩ : Lexer) =
      .cont .expression ⟨5, 5, 1, "\x7b\x7b (1+2 \x7d\x7d".toList,
      [⟨"\x7b\x7b".toList, 0, .printOpen⟩,
       ⟨"(".toList, 3, .parensOpen⟩,
       ⟨"1".toList, 4, .number⟩]⟩ := by decide
  have a6 : step .expression
      (⟨5, 5, 1, "\x7b\x7b (1+2 \x7d\x7d".toList,
      [⟨"\x7b\x7b".toList, 0, .printOpen⟩,
       ⟨"(".toList, 3, .parensOpen⟩,
       ⟨"1".toList, 4, .number⟩]⟩ : Lexer) =
      .cont .operator ⟨5, 5, 1, "\x7b\x7b (1+2 \x7d\x7d".toList,
      [⟨"\x7b\x7b".toList, 0, .printOpen⟩,
       ⟨"(".toList, 3, .parensOpen⟩,
       ⟨"1".toList, 4, .number⟩]⟩ := by decide
  have a7 : step .operator
      (⟨5, 5, 1, "\x7b\x7b (1+2 \x7d\x7d".toList,
      [⟨"\x7b\x7b".toList, 0, .printOpen⟩,
       ⟨"(".toList, 3, .parensOpen⟩,
       ⟨"1".toList, 4, .number⟩]⟩ : Lexer) =
      .cont .expression ⟨6, 6, 1, "\x7b\x7b (1+2 \x7d\x7d".toList,
      [⟨"\x7b\x7b".toList, 0, .printOpen⟩,
       ⟨"(".toList, 3, .parensOpen⟩,
       ⟨"1".toList, 4, .number⟩,
       ⟨"+".toList, 5, .operator⟩]⟩ := by decide
  have a8 : step .expression
      (⟨6, 6, 1, "\x7b\x7b (1+2 \x7d\x7d".toList,
      [⟨"\x7b\x7b".toList, 0, .printOpen⟩,
       ⟨"(".toList, 3, .parensOpen⟩,
       ⟨"1".toList, 4, .number⟩,
       ⟨"+".toList, 5, .operator⟩]⟩ : Lexer) =
      .cont .number ⟨6, 6, 1, "\x7b\x7b (1+2 \x7d\x7d".toList,
      [⟨"\x7b\x7b".toList, 0, .printOpen⟩,
       ⟨"(".toList, 3, .parensOpen⟩,
       ⟨"1".toList, 4, .number⟩,
       ⟨"+".toList, 5, .operator⟩]⟩ := by decide
  have a9 : step .number
      (⟨6, 6, 1, "\x7b\x7b (1+2 \x7d\x7d".toList,
      [⟨"\x7b\x7b".toList, 0, .printOpen⟩,
       ⟨"(".toList, 3, .parensOpen⟩,
       ⟨"1".toList, 4, .number⟩,
       ⟨"+".toList, 5, .operator⟩]⟩ : Lexer) =
      .cont .expression ⟨8, 8, 1, "\x7b\x7b (1+2 \x7d\x7d".toList,
      [⟨"\x7b\x7b".toList, 0, .printOpen⟩,
       ⟨"(".toList, 3, .parensOpen⟩,
       ⟨"1".toList, 4, .number⟩,
       ⟨"+".toList, 5, .operator⟩,
       ⟨"2".toList, 6, .number⟩]⟩ := by decide
  have a10 : step .expression
      (⟨8, 8, 1, "\x7b\x7b (1+2 \x7d\x7d".toList,
      [⟨"\x7b\x7b".toList, 0, .printOpen⟩,
       ⟨"(".toList, 3, .parensOpen⟩,
       ⟨"1".toList, 4, .number⟩,
       ⟨"+".toList, 5, .operator⟩,
       ⟨"2".toList, 6, .number⟩]⟩ : Lexer) =
      .cont .printClose ⟨8, 8, 1, "\x7b\x7b (1+2 \x7d\x7d".toList,
      [⟨"\x7b\x7b".toList, 0, .printOpen⟩,
       ⟨"(".toList, 3, .parensOpen⟩,
       ⟨"1".toList, 4, .number⟩,
       ⟨"+".toList, 5, .operator⟩,
       ⟨"2".toList, 6, .number⟩]⟩ := by decide
  have a11 : step .printClose
      (⟨8, 8, 1, "\x7b\x7b (1+2 \x7d\x7d".toList,
      [⟨"\x7b\x7b".toList, 0, .printOpen⟩,
       ⟨"(".toList, 3, .parensOpen⟩,
       ⟨"1".toList, 4, .number⟩,
       ⟨"+".toList, 5, .operator⟩,
       ⟨"2".toList, 6, .number⟩]⟩ : Lexer) =
      .halt ⟨8, 8, 1, "\x7b\x7b (1+2 \x7d\x7d".toList,
      [⟨"\x7b\x7b".toList, 0, .printOpen⟩,
       ⟨"(".toList, 3, .parensOpen⟩,
       ⟨"1".toList, 4, .number⟩,
       ⟨"+".toList, 5, .operator⟩,
       ⟨"2".toList, 6, .number⟩,
       ⟨"unclosed parenthesis".toList, 8, .error⟩]⟩ := by decide
  have b0 : step .data
      (⟨0, 0, 0, "\x7b\x7b (1+2) \x7d\x7d".toList,
      []⟩ : Lexer) =
      .cont .printOpen ⟨0, 0, 0, "\x7b\x7b (1+2) \x7d\x7d".toList,
      []⟩ := by decide
  have b1 : step .printOpen
      (⟨0, 0, 0, "\x7b\x7b (1+2) \x7d\x7d".toList,
      []⟩ : Lexer) =
      .cont .expression ⟨3, 3, 0, "\x7b\x7b (1+2) \x7d\x7d".toList,
      [⟨"\x7b\x7b".toList, 0, .printOpen⟩]⟩ := by decide
  have b2 : step .expression
      (⟨3, 3, 0, "\x7b\x7b (1+2) \x7d\x7d".toList,
      [⟨"\x7b\x7b".toList, 0, .printOpen⟩]⟩ : Lexer) =
      .cont .openParens ⟨3, 3, 0, "\x7b\x7b (1+2) \x7d\x7d".toList,
      [⟨"\x7b\x7b".toList, 0, .printOpen⟩]⟩ := by decide
  have b3 : step .openParens
      (⟨3, 3, 0, "\x7b\x7b (1+2) \x7d\x7d".toList,
      [⟨"\x7b\x7b".toList, 0, .printOpen⟩]⟩ : Lexer) =
      .cont .expression ⟨4, 4, 1, "\x7b\x7b (1+2) \x7d\x7d".toList,
      [⟨"\x7b\x7b".toList, 0, .printOpen⟩,
       ⟨"(".toList, 3, .parensOpen⟩]⟩ := by decide
  have b4 : step .expression
      (⟨4, 4, 1, "\x7b\x7b (1+2) \x7d\x7d".toList,
      [⟨"\x7b\x7b".toList, 0, .printOpen⟩,
       ⟨"(".toList, 3, .parensOpen⟩]⟩ : Lexer) =
      .cont .number ⟨4, 4, 1, "\x7b\x7b (1+2) \x7d\x7d".toList,
      [⟨"\x7b\x7b".toList, 0, .printOpen⟩,
       ⟨"(".toList, 3, .parensOpen⟩]⟩ := by decide
  have b5 : step .number
      (⟨4, 4, 1, "\x7b\x7b (1+2) \x7d\x7d".toList,
      [⟨"\x7b\x7b".toList, 0, .printOpen⟩,
       ⟨"(".toList, 3, .parensOpen⟩]⟩ : Lexer) =
      .cont .expression ⟨5, 5, 1, "\x7b\x7b (1+2) \x7d\x7d".toList,
      [⟨"\x7b\x7b".toList, 0, .printOpen⟩,
       ⟨"(".toList, 3, .parensOpen⟩,
       ⟨"1".toList, 4, .number⟩]⟩ := by decide
  have b6 : step .expression
      (⟨5, 5, 1, "\x7b\x7b (1+2) \x7d\x7d".toList,
      [⟨"\x7b\x7b".toList, 0, .printOpen⟩,
       ⟨"(".toList, 3, .parensOpen⟩,
       ⟨"1".toList, 4, .number⟩]⟩ : Lexer) =
      .cont .operator ⟨5, 5, 1, "\x7b\x7b (1+2) \x7d\x7d".toList,
      [⟨"\x7b\x7b".toList, 0, .printOpen⟩,
       ⟨"(".toList, 3, .parensOpen⟩,
       ⟨"1".toList, 4, .number⟩]⟩ := by decide
  have b7 : step .operator
      (⟨5, 5, 1, "\x7b\x7b (1+2) \x7d\x7d".toList,
      [⟨"\x7b\x7b".toList, 0, .printOpen⟩,
       ⟨"(".toList, 3, .parensOpen⟩,
       ⟨"1".toList, 4, .number⟩]⟩ : Lexer) =
      .cont .expression ⟨6, 6, 1, "\x7b\x7b (1+2) \x7d\x7d".toList,
      [⟨"\x7b\x7b".toList, 0, .printOpen⟩,
       ⟨"(".toList, 3, .parensOpen⟩,
       ⟨"1".toList, 4, .number⟩,
       ⟨"+".toList, 5, .operator⟩]⟩ := by decide
  have b8 : step .expression
      (⟨6, 6, 1, "\x7b\x7b (1+2) \x7d\x7d".toList,
      [⟨"\x7b\x7b".toList, 0, .printOpen⟩,
       ⟨"(".toList, 3, .parensOpen⟩,
       ⟨"1".toList, 4, .number⟩,
       ⟨"+".toList, 5, .operator⟩]⟩ : Lexer) =
      .cont .number ⟨6, 6, 1, "\x7b\x7b (1+2) \x7d\x7d".toList,
      [⟨"\x7b\x7b".toList, 0, .printOpen⟩,
       ⟨"(".toList, 3, .parensOpen⟩,
       ⟨"1".toList, 4, .number⟩,
       ⟨"+".toList, 5, .operator⟩]⟩ := by decide
  have b9 : step .number
      (⟨6, 6, 1, "\x7b\x7b (1+2) \x7d\x7d".toList,
      [⟨"\x7b\x7b".toList, 0, .printOpen⟩,
       ⟨"(".toList, 3, .parensOpen⟩,
       ⟨"1".toList, 4, .number⟩,
       ⟨"+".toList, 5, .operator⟩]⟩ : Lexer) =
      .cont .expression ⟨7, 7, 1, "\x7b\x7b (1+2) \x7d\x7d".toList,
      [⟨"\x7b\x7b".toList, 0, .printOpen⟩,
       ⟨"(".toList, 3, .parensOpen⟩,
       ⟨"1".toList, 4, .number⟩,
       ⟨"+".toList, 5, .operator⟩,
       ⟨"2".toList, 6, .number⟩]⟩ := by decide
  have b10 : step .expression
      (⟨7, 7, 1, "\x7b\x7b (1+2) \x7d\x7d".toList,
      [⟨"\x7b\x7b".toList, 0, .printOpen⟩,
       ⟨"(".toList, 3, .parensOpen⟩,
       ⟨"1".toList, 4, .number⟩,
       ⟨"+".toList, 5, .operator⟩,
       ⟨"2".toList, 6, .number⟩]⟩ : Lexer) =
      .cont .closeParens ⟨7, 7, 1, "\x7b\x7b (1+2) \x7d\x7d".toList,
      [⟨"\x7b\x7b".toList, 0, .printOpen⟩,
       ⟨"(".toList, 3, .parensOpen⟩,
       ⟨"1".toList, 4, .number⟩,
       ⟨"+".toList, 5, .operator⟩,
       ⟨"2".toList, 6, .number⟩]⟩ := by decide
  have b11 : step .closeParens
      (⟨7, 7, 1, "\x7b\x7b (1+2) \x7d\x7d".toList,
      [⟨"\x7b\x7b".toList, 0, .printOpen⟩,
       ⟨"(".toList, 3, .parensOpen⟩,
       ⟨"1".toList, 4, .number⟩,
       ⟨"+".toList, 5, .operator⟩,
       ⟨"2".toList, 6, .number⟩]⟩ : Lexer) =
      .cont .expression ⟨9, 9, 0, "\x7b\x7b (1+2) \x7d\x7d".toList,
      [⟨"\x7b\x7b".toList, 0, .printOpen⟩,
       ⟨"(".toList, 3, .parensOpen⟩,
       ⟨"1".toList, 4, .number⟩,
       ⟨"+".toList, 5, .operator⟩,
       ⟨"2".toList, 6, .number⟩,
       ⟨")".toList, 7, .parensClose⟩]⟩ := by decide
  have b12 : step .expression
      (⟨9, 9, 0, "\x7b\x7b (1+2) \x7d\x7d".toList,
      [⟨"\x7b\x7b".toList, 0, .printOpen⟩,
       ⟨"(".toList, 3, .parensOpen⟩,
       ⟨"1".toList, 4, .number⟩,
       ⟨"+".toList, 5, .operator⟩,
       ⟨"2".toList, 6, .number⟩,
       ⟨")".toList, 7, .parensClose⟩]⟩ : Lexer) =
      .cont .printClose ⟨9, 9, 0, "\x7b\x7b (1+2) \x7d\x7d".toList,
      [⟨"\x7b\x7b".toList, 0, .printOpen⟩,
       ⟨"(".toList, 3, .parensOpen⟩,
       ⟨"1".toList, 4, .number⟩,
       ⟨"+".toList, 5, .operator⟩,
       ⟨"2".toList, 6, .number⟩,
       ⟨")".toList, 7, .parensClose⟩]⟩ := by decide
  have b13 : step .printClose
      (⟨9, 9, 0, "\x7b\x7b (1+2) \x7d\x7d".toList,
      [⟨"\x7b\x7b".toList, 0, .printOpen⟩,
       ⟨"(".toList, 3, .parensOpen⟩,
       ⟨"1".toList, 4, .number⟩,
       ⟨"+".toList, 5, .operator⟩,
       ⟨"2".toList, 6, .number⟩,
       ⟨")".toList, 7, .parensClose⟩]⟩ : Lexer) =
      .cont .data ⟨11, 11, 0, "\x7b\x7b (1+2) \x7d\x7d".toList,
      [⟨"\x7b\x7b".toList, 0, .printOpen⟩,
       ⟨"(".toList, 3, .parensOpen⟩,
       ⟨"1".toList, 4, .number⟩,
       ⟨"+".toList, 5, .operator⟩,
       ⟨"2".toList, 6, .number⟩,
       ⟨")".toList, 7, .parensClose⟩,
       ⟨"\x7d\x7d".toList, 9, .printClose⟩]⟩ := by decide
  have b14 : step .data
      (⟨11, 11, 0, "\x7b\x7b (1+2) \x7d\x7d".toList,
      [⟨"\x7b\x7b".toList, 0, .printOpen⟩,
       ⟨"(".toList, 3, .parensOpen⟩,
       ⟨"1".toList, 4, .number⟩,
       ⟨"+".toList, 5, .operator⟩,
       ⟨"2".toList, 6, .number⟩,
       ⟨")".toList, 7, .parensClose⟩,
       ⟨"\x7d\x7d".toList, 9, .printClose⟩]⟩ : Lexer) =
      .halt ⟨11, 11, 0, "\x7b\x7b (1+2) \x7d\x7d".toList,
      [⟨"\x7b\x7b".toList, 0, .printOpen⟩,
       ⟨"(".toList, 3, .parensOpen⟩,
       ⟨"1".toList, 4, .number⟩,
       ⟨"+".toList, 5, .operator⟩,
       ⟨"2".toList, 6, .number⟩,
       ⟨")".toList, 7, .parensClose⟩,
       ⟨"\x7d\x7d".toList, 9, .printClose⟩,
       ⟨[], 11, .eof⟩]⟩ := by decide
  refine ⟨?_, ?_, ?_, by decide⟩
  · intro lexr fuel hp
    have hstepP : step .printClose lexr =
        .halt (Lexer.errorf ("unclosed parenthesis".toList) lexr) := by
      show lexPrintClose lexr = _
      unfold lexPrintClose
      rw [if_pos hp]
    have hstepT : step .tagClose lexr =
        .halt (Lexer.errorf ("unclosed parenthesis".toList) lexr) := by
      show lexTagClose lexr = _
      unfold lexTagClose
      rw [if_pos hp]
    refine ⟨?_, ?_, rfl⟩
    · rw [run, hstepP]
    · rw [run, hstepT]
  · exact ((run_step_cont 11 _ _ _ _ a0).trans ((run_step_cont 10 _ _ _ _ a1).trans ((run_step_cont 9 _ _ _ _ a2).trans ((run_step_cont 8 _ _ _ _ a3).trans ((run_step_cont 7 _ _ _ _ a4).trans ((run_step_cont 6 _ _ _ _ a5).trans ((run_step_cont 5 _ _ _ _ a6).trans ((run_step_cont 4 _ _ _ _ a7).trans ((run_step_cont 3 _ _ _ _ a8).trans ((run_step_cont 2 _ _ _ _ a9).trans ((run_step_cont 1 _ _ _ _ a10).trans (run_step_halt 0 _ _ _ a11))))))))))))
  · exact ((run_step_cont 14 _ _ _ _ b0).trans ((run_step_cont 13 _ _ _ _ b1).trans ((run_step_cont 12 _ _ _ _ b2).trans ((run_step_cont 11 _ _ _ _ b3).trans ((run_step_cont 10 _ _ _ _ b4).trans ((run_step_cont 9 _ _ _ _ b5).trans ((run_step_cont 8 _ _ _ _ b6).trans ((run_step_cont 7 _ _ _ _ b7).trans ((run_step_cont 6 _ _ _ _ b8).trans ((run_step_cont 5 _ _ _ _ b9).trans ((run_step_cont 4 _ _ _ _ b10).trans ((run_step_cont 3 _ _ _ _ b11).trans ((run_step_cont 2 _ _ _ _ b12).trans ((run_step_cont 1 _ _ _ _ b13).trans (run_step_halt 0 _ _ _ b14)))))))))))))))

/-- Witness of the general part of the amended C2 at a one-token state
with counter one. -/
theorem close_with_open_parens_errors_witness :
    run 1 .printClose (⟨0, 0, 1, [], []⟩ : Lexer) =
      .done (Lexer.errorf ("unclosed parenthesis".toList) ⟨0, 0, 1, [], []⟩) :=
  (close_with_open_parens_errors.1 ⟨0, 0, 1, [], []⟩ 0 (by decide)).1

/-- C2 (counterexample to the claim as stated): a close delimiter
reached with a NONZERO (negative) counter does not produce any error:
on this input the machine reaches the print-close state with the counter
at minus one, and the stream completes with print-close and EOF and
contains no error token. -/
theorem close_with_negative_parens_no_error :
    advance 5 .data (initLex ("\x7b\x7b ] \x7d\x7d".toList)) =
      some (.printClose, ⟨5, 5, -1, "\x7b\x7b ] \x7d\x7d".toList,
      [⟨"\x7b\x7b".toList, 0, .printOpen⟩,
       ⟨"]".toList, 3, .arrayClose⟩]⟩) ∧
    lex ("\x7b\x7b ] \x7d\x7d".toList) 7 = .done
      ⟨7, 7, -1, "\x7b\x7b ] \x7d\x7d".toList,
      [⟨"\x7b\x7b".toList, 0, .printOpen⟩,
       ⟨"]".toList, 3, .arrayClose⟩,
       ⟨"\x7d\x7d".toList, 5, .printClose⟩,
       ⟨[], 7, .eof⟩]⟩ ∧
    ((⟨7, 7, -1, "\x7b\x7b ] \x7d\x7d".toList,
      [⟨"\x7b\x7b".toList, 0, .printOpen⟩,
       ⟨"]".toList, 3, .arrayClose⟩,
       ⟨"\x7d\x7d".toList, 5, .printClose⟩,
       ⟨[], 7, .eof⟩]⟩ : Lexer).tokens.filter
        (fun t => t.tokenType == TokenType.error)).length = 0 := by
  have c0 : step .data
      (⟨0, 0, 0, "\x7b\x7b ] \x7d\x7d".toList,
      []⟩ : Lexer) =
      .cont .printOpen ⟨0, 0, 0, "\x7b\x7b ] \x7d\x7d".toList,
      []⟩ := by decide
  have c1 : step .printOpen
      (⟨0, 0, 0, "\x7b\x7b ] \x7d\x7d".toList,
      []⟩ : Lexer) =
      .cont .expression ⟨3, 3, 0, "\x7b\x7b ] \x7d\x7d".toList,
      [⟨"\x7b\x7b".toList, 0, .printOpen⟩]⟩ := by decide
  have c2 : step .expression
      (⟨3, 3, 0, "\x7b\x7b ] \x7d\x7d".toList,
      [⟨"\x7b\x7b".toList, 0, .printOpen⟩]⟩ : Lexer) =
      .cont .closeParens ⟨3, 3, 0, "\x7b\x7b ] \x7d\x7d".toList,
      [⟨"\x7b\x7b".toList, 0, .printOpen⟩]⟩ := by decide
  have c3 : step .closeParens
      (⟨3, 3, 0, "\x7b\x7b ] \x7d\x7d".toList,
      [⟨"\x7b\x7b".toList, 0, .printOpen⟩]⟩ : Lexer) =
      .cont .expression ⟨5, 5, -1, "\x7b\x7b ] \x7d\x7d".toList,
      [⟨"\x7b\x7b".toList, 0, .printOpen⟩,
       ⟨"]".toList, 3, .arrayClose⟩]⟩ := by decide
  have c4 : step .expression
      (⟨5, 5, -1, "\x7b\x7b ] \x7d\x7d".toList,
      [⟨"\x7b\x7b".toList, 0, .printOpen⟩,
       ⟨"]".toList, 3, .arrayClose⟩]⟩ : Lexer) =
      .cont .printClose ⟨5, 5, -1, "\x7b\x7b ] \x7d\x7d".toList,
      [⟨"\x7b\x7b".toList, 0, .printOpen⟩,
       ⟨"]".toList, 3, .arrayClose⟩]⟩ := by decide
  have c5 : step .printClose
      (⟨5, 5, -1, "\x7b\x7b ] \x7d\x7d".toList,
      [⟨"\x7b\x7b".toList, 0, .printOpen⟩,
       ⟨"]".toList, 3, .arrayClose⟩]⟩ : Lexer) =
      .cont .data ⟨7, 7, -1, "\x7b\x7b ] \x7d\x7d".toList,
      [⟨"\x7b\x7b".toList, 0, .printOpen⟩,
       ⟨"]".toList, 3, .arrayClose⟩,
       ⟨"\x7d\x7d".toList, 5, .printClose⟩]⟩ := by decide
  have c6 : step .data
      (⟨7, 7, -1, "\x7b\x7b ] \x7d\x7d".toList,
      [⟨"\x7b\x7b".toList, 0, .printOpen⟩,
       ⟨"]".toList, 3, .arrayClose⟩,
       ⟨"\x7d\x7d".toList, 5, .printClose⟩]⟩ : Lexer) =
      .halt ⟨7, 7, -1, "\x7b\x7b ] \x7d\x7d".toList,
      [⟨"\x7b\x7b".toList, 0, .printOpen⟩,
       ⟨"]".toList, 3, .arrayClose⟩,
       ⟨"\x7d\x7d".toList, 5, .printClose⟩,
       ⟨[], 7, .eof⟩]⟩ := by decide
  refine ⟨?_, ?_, by decide⟩
  · exact (advance_step 4 _ _ _ _ c0).trans ((advance_step 3 _ _ _ _ c1).trans ((advance_step 2 _ _ _ _ c2).trans ((advance_step 1 _ _ _ _ c3).trans ((advance_step 0 _ _ _ _ c4).trans rfl))))
  · exact ((run_step_cont 6 _ _ _ _ c0).trans ((run_step_cont 5 _ _ _ _ c1).trans ((run_step_cont 4 _ _ _ _ c2).trans ((run_step_cont 3 _ _ _ _ c3).trans ((run_step_cont 2 _ _ _ _ c4).trans ((run_step_cont 1 _ _ _ _ c5).trans (run_step_halt 0 _ _ _ c6)))))))

/-- C3 (amended): when the string state finds no closing quote in the
remaining input, the lexer appends a single error token whose message is
"unclosed string" (the code's message, not the spec's "unterminated
string") and halts at once: the error token is the last token, so no EOF
follows it; the unterminated-string example errors this way with no EOF
token in its stream. -/
theorem unclosed_string_error :
    (∀ (lexr s2 : Lexer) (fuel : Nat),
      Lexer.emit .stringOpen lexr.next.2 = some s2 →
      quoteIndex (s2.input.drop s2.cursor) = none →
      run (fuel + 1) .strLit lexr =
        .done (Lexer.errorf ("unclosed string".toList) s2) ∧
      (Lexer.errorf ("unclosed string".toList) s2).tokens =
        s2.tokens ++ [⟨"unclosed string".toList, s2.pos, .error⟩]) ∧
    lex ("\x7b\x7b \x22unterminated \x7d\x7d".toList) 4 = .done
      ⟨4, 4, 0, "\x7b\x7b \x22unterminated \x7d\x7d".toList,
      [⟨"\x7b\x7b".toList, 0, .printOpen⟩,
       ⟨"\x22".toList, 3, .stringOpen⟩,
       ⟨"unclosed string".toList, 4, .error⟩]⟩ ∧
    ((⟨4, 4, 0, "\x7b\x7b \x22unterminated \x7d\x7d".toList,
      [⟨"\x7b\x7b".toList, 0, .printOpen⟩,
       ⟨"\x22".toList, 3, .stringOpen⟩,
       ⟨"unclosed string".toList, 4, .error⟩]⟩ : Lexer).tokens.filter
        (fun t => t.tokenType == TokenType.eof)).length = 0 := by
  have d0 : step .data
      (⟨0, 0, 0, "\x7b\x7b \x22unterminated \x7d\x7d".toList,
      []⟩ : Lexer) =
      .cont .printOpen ⟨0, 0, 0, "\x7b\x7b \x22unterminated \x7d\x7d".toList,
      []⟩ := by decide
  have d1 : step .printOpen
      (⟨0, 0, 0, "\x7b\x7b \x22unterminated \x7d\x7d".toList,
      []⟩ : Lexer) =
      .cont .expression ⟨3, 3, 0, "\x7b\x7b \x22unterminated \x7d\x7d".toList,
      [⟨"\x7b\x7b".toList, 0, .printOpen⟩]⟩ := by decide
  have d2 : step .expression
      (⟨3, 3, 0, "\x7b\x7b \x22unterminated \x7d\x7d".toList,
      [⟨"\x7b\x7b".toList, 0, .printOpen⟩]⟩ : Lexer) =
      .cont .strLit ⟨3, 3, 0, "\x7b\x7b \x22unterminated \x7d\x7d".toList,
      [⟨"\x7b\x7b".toList, 0, .printOpen⟩]⟩ := by decide
  have d3 : step .strLit
      (⟨3, 3, 0, "\x7b\x7b \x22unterminated \x7d\x7d".toList,
      [⟨"\x7b\x7b".toList, 0, .printOpen⟩]⟩ : Lexer) =
      .halt ⟨4, 4, 0, "\x7b\x7b \x22unterminated \x7d\x7d".toList,
      [⟨"\x7b\x7b".toList, 0, .printOpen⟩,
       ⟨"\x22".toList, 3, .stringOpen⟩,
       ⟨"unclosed string".toList, 4, .error⟩]⟩ := by decide
  refine ⟨?_, ?_, by decide⟩
  · intro lexr s2 fuel hemit hq
    have hstep : step .strLit lexr = .halt (Lexer.errorf ("unclosed string".toList) s2) := by
      show lexString lexr = _
      unfold lexString
      rw [hemit]
      dsimp only
      rw [hq]
    exact ⟨by rw [run, hstep], rfl⟩
  · exact ((run_step_cont 3 _ _ _ _ d0).trans ((run_step_cont 2 _ _ _ _ d1).trans ((run_step_cont 1 _ _ _ _ d2).trans (run_step_halt 0 _ _ _ d3))))

/-- Witness of the general part of the amended C3 at the state reached
by the unterminated-string example when it enters the string state. -/
theorem unclosed_string_error_witness :
    run 1 .strLit
        ⟨3, 3, 0, "\x7b\x7b \x22unterminated \x7d\x7d".toList,
          [⟨"\x7b\x7b".toList, 0, .printOpen⟩]⟩ =
      .done (Lexer.errorf ("unclosed string".toList)
        ⟨4, 4, 0, "\x7b\x7b \x22unterminated \x7d\x7d".toList,
          [⟨"\x7b\x7b".toList, 0, .printOpen⟩, ⟨"\x22".toList, 3, .stringOpen⟩]⟩) :=
  (unclosed_string_error.1
    ⟨3, 3, 0, "\x7b\x7b \x22unterminated \x7d\x7d".toList,
      [⟨"\x7b\x7b".toList, 0, .printOpen⟩]⟩
    ⟨4, 4, 0, "\x7b\x7b \x22unterminated \x7d\x7d".toList,
      [⟨"\x7b\x7b".toList, 0, .printOpen⟩, ⟨"\x22".toList, 3, .stringOpen⟩]⟩
    0 (by decide) (by decide)).1

/-- C9: tokenize resets pos, cursor, input and tokens but not the parens
counter, so reusing a lexer value whose previous run halted with a
positive counter changes the outcome: the same source tokenizes to an
"unclosed parenthesis" error on the reused lexer but to a clean stream
on a fresh lexer. -/
theorem tokenize_reuse_not_deterministic :
    lex ("\x7b\x7b (\x22x \x7d\x7d".toList) 6 = .done
      ⟨5, 5, 1, "\x7b\x7b (\x22x \x7d\x7d".toList,
      [⟨"\x7b\x7b".toList, 0, .printOpen⟩,
       ⟨"(".toList, 3, .parensOpen⟩,
       ⟨"\x22".toList, 4, .stringOpen⟩,
       ⟨"unclosed string".toList, 5, .error⟩]⟩ ∧
    Lexer.tokenize
      ⟨5, 5, 1, "\x7b\x7b (\x22x \x7d\x7d".toList,
      [⟨"\x7b\x7b".toList, 0, .printOpen⟩,
       ⟨"(".toList, 3, .parensOpen⟩,
       ⟨"\x22".toList, 4, .stringOpen⟩,
       ⟨"unclosed string".toList, 5, .error⟩]⟩
      ("\x7b\x7b 1 \x7d\x7d".toList) 6 = .done
      ⟨5, 5, 1, "\x7b\x7b 1 \x7d\x7d".toList,
      [⟨"\x7b\x7b".toList, 0, .printOpen⟩,
       ⟨"1".toList, 3, .number⟩,
       ⟨"unclosed parenthesis".toList, 5, .error⟩]⟩ ∧
    Lexer.tokenize newLexer ("\x7b\x7b 1 \x7d\x7d".toList) 7 = .done exPrintDone ∧
    (⟨5, 5, 1, "\x7b\x7b 1 \x7d\x7d".toList,
      [⟨"\x7b\x7b".toList, 0, .printOpen⟩,
       ⟨"1".toList, 3, .number⟩,
       ⟨"unclosed parenthesis".toList, 5, .error⟩]⟩ : Lexer).tokens ≠ exPrintDone.tokens := by
  have f0 : step .data
      (⟨0, 0, 0, "\x7b\x7b (\x22x \x7d\x7d".toList,
      []⟩ : Lexer) =
      .cont .printOpen ⟨0, 0, 0, "\x7b\x7b (\x22x \x7d\x7d".toList,
      []⟩ := by decide
  have f1 : step .printOpen
      (⟨0, 0, 0, "\x7b\x7b (\x22x \x7d\x7d".toList,
      []⟩ : Lexer) =
      .cont .expression ⟨3, 3, 0, "\x7b\x7b (\x22x \x7d\x7d".toList,
      [⟨"\x7b\x7b".toList, 0, .printOpen⟩]⟩ := by decide
  have f2 : step .expression
      (⟨3, 3, 0, "\x7b\x7b (\x22x \x7d\x7d".toList,
      [⟨"\x7b\x7b".toList, 0, .printOpen⟩]⟩ : Lexer) =
      .cont .openParens ⟨3, 3, 0, "\x7b\x7b (\x22x \x7d\x7d".toList,
      [⟨"\x7b\x7b".toList, 0, .printOpen⟩]⟩ := by decide
  have f3 : step .openParens
      (⟨3, 3, 0, "\x7b\x7b (\x22x \x7d\x7d".toList,
      [⟨"\x7b\x7b".toList, 0, .printOpen⟩]⟩ : Lexer) =
      .cont .expression ⟨4, 4, 1, "\x7b\x7b (\x22x \x7d\x7d".toList,
      [⟨"\x7b\x7b".toList, 0, .printOpen⟩,
       ⟨"(".toList, 3, .parensOpen⟩]⟩ := by decide
  have f4 : step .expression
      (⟨4, 4, 1, "\x7b\x7b (\x22x \x7d\x7d".toList,
      [⟨"\x7b\x7b".toList, 0, .printOpen⟩,
       ⟨"(".toList, 3, .parensOpen⟩]⟩ : Lexer) =
      .cont .strLit ⟨4, 4, 1, "\x7b\x7b (\x22x \x7d\x7d".toList,
      [⟨"\x7b\x7b".toList, 0, .printOpen⟩,
       ⟨"(".toList, 3, .parensOpen⟩]⟩ := by decide
  have f5 : step .strLit
      (⟨4, 4, 1, "\x7b\x7b (\x22x \x7d\x7d".toList,
      [⟨"\x7b\x7b".toList, 0, .printOpen⟩,
       ⟨"(".toList, 3, .parensOpen⟩]⟩ : Lexer) =
      .halt ⟨5, 5, 1, "\x7b\x7b (\x22x \x7d\x7d".toList,
      [⟨"\x7b\x7b".toList, 0, .printOpen⟩,
       ⟨"(".toList, 3, .parensOpen⟩,
       ⟨"\x22".toList, 4, .stringOpen⟩,
       ⟨"unclosed string".toList, 5, .error⟩]⟩ := by decide
  have h0 : step .data
      (⟨0, 0, 1, "\x7b\x7b 1 \x7d\x7d".toList,
      []⟩ : Lexer) =
      .cont .printOpen ⟨0, 0, 1, "\x7b\x7b 1 \x7d\x7d".toList,
      []⟩ := by decide
  have h1 : step .printOpen
      (⟨0, 0, 1, "\x7b\x7b 1 \x7d\x7d".toList,
      []⟩ : Lexer) =
      .cont .expression ⟨3, 3, 1, "\x7b\x7b 1 \x7d\x7d".toList,
      [⟨"\x7b\x7b".toList, 0, .printOpen⟩]⟩ := by decide
  have h2 : step .expression
      (⟨3, 3, 1, "\x7b\x7b 1 \x7d\x7d".toList,
      [⟨"\x7b\x7b".toList, 0, .printOpen⟩]⟩ : Lexer) =
      .cont .number ⟨3, 3, 1, "\x7b\x7b 1 \x7d\x7d".toList,
      [⟨"\x7b\x7b".toList, 0, .printOpen⟩]⟩ := by decide
  have h3 : step .number
      (⟨3, 3, 1, "\x7b\x7b 1 \x7d\x7d".toList,
      [⟨"\x7b\x7b".toList, 0, .printOpen⟩]⟩ : Lexer) =
      .cont .expression ⟨5, 5, 1, "\x7b\x7b 1 \x7d\x7d".toList,
      [⟨"\x7b\x7b".toList, 0, .printOpen⟩,
       ⟨"1".toList, 3, .number⟩]⟩ := by decide
  have h4 : step .expression
      (⟨5, 5, 1, "\x7b\x7b 1 \x7d\x7d".toList,
      [⟨"\x7b\x7b".toList, 0, .printOpen⟩,
       ⟨"1".toList, 3, .number⟩]⟩ : Lexer) =
      .cont .printClose ⟨5, 5, 1, "\x7b\x7b 1 \x7d\x7d".toList,
      [⟨"\x7b\x7b".toList, 0, .printOpen⟩,
       ⟨"1".toList, 3, .number⟩]⟩ := by decide
  have h5 : step .printClose
      (⟨5, 5, 1, "\x7b\x7b 1 \x7d\x7d".toList,
      [⟨"\x7b\x7b".toList, 0, .printOpen⟩,
       ⟨"1".toList, 3, .number⟩]⟩ : Lexer) =
      .halt ⟨5, 5, 1, "\x7b\x7b 1 \x7d\x7d".toList,
      [⟨"\x7b\x7b".toList, 0, .printOpen⟩,
       ⟨"1".toList, 3, .number⟩,
       ⟨"unclosed parenthesis".toList, 5, .error⟩]⟩ := by decide
  have g0 : step .data
      (⟨0, 0, 0, "\x7b\x7b 1 \x7d\x7d".toList,
      []⟩ : Lexer) =
      .cont .printOpen ⟨0, 0, 0, "\x7b\x7b 1 \x7d\x7d".toList,
      []⟩ := by decide
  have g1 : step .printOpen
      (⟨0, 0, 0, "\x7b\x7b 1 \x7d\x7d".toList,
      []⟩ : Lexer) =
      .cont .expression ⟨3, 3, 0, "\x7b\x7b 1 \x7d\x7d".toList,
      [⟨"\x7b\x7b".toList, 0, .printOpen⟩]⟩ := by decide
  have g2 : step .expression
      (⟨3, 3, 0, "\x7b\x7b 1 \x7d\x7d".toList,
      [⟨"\x7b\x7b".toList, 0, .printOpen⟩]⟩ : Lexer) =
      .cont .number ⟨3, 3, 0, "\x7b\x7b 1 \x7d\x7d".toList,
      [⟨"\x7b\x7b".toList, 0, .printOpen⟩]⟩ := by decide
  have g3 : step .number
      (⟨3, 3, 0, "\x7b\x7b 1 \x7d\x7d".toList,
      [⟨"\x7b\x7b".toList, 0, .printOpen⟩]⟩ : Lexer) =
      .cont .expression ⟨5, 5, 0, "\x7b\x7b 1 \x7d\x7d".toList,
      [⟨"\x7b\x7b".toList, 0, .printOpen⟩,
       ⟨"1".toList, 3, .number⟩]⟩ := by decide
  have g4 : step .expression
      (⟨5, 5, 0, "\x7b\x7b 1 \x7d\x7d".toList,
      [⟨"\x7b\x7b".toList, 0, .printOpen⟩,
       ⟨"1".toList, 3, .number⟩]⟩ : Lexer) =
      .cont .printClose ⟨5, 5, 0, "\x7b\x7b 1 \x7d\x7d".toList,
      [⟨"\x7b\x7b".toList, 0, .printOpen⟩,
       ⟨"1".toList, 3, .number⟩]⟩ := by decide
  have g5 : step .printClose
      (⟨5, 5, 0, "\x7b\x7b 1 \x7d\x7d".toList,
      [⟨"\x7b\x7b".toList, 0, .printOpen⟩,
       ⟨"1".toList, 3, .number⟩]⟩ : Lexer) =
      .cont .data ⟨7, 7, 0, "\x7b\x7b 1 \x7d\x7d".toList,
      [⟨"\x7b\x7b".toList, 0, .printOpen⟩,
       ⟨"1".toList, 3, .number⟩,
       ⟨"\x7d\x7d".toList, 5, .printClose⟩]⟩ := by decide
  have g6 : step .data
      (⟨7, 7, 0, "\x7b\x7b 1 \x7d\x7d".toList,
      [⟨"\x7b\x7b".toList, 0, .printOpen⟩,
       ⟨"1".toList, 3, .number⟩,
       ⟨"\x7d\x7d".toList, 5, .printClose⟩]⟩ : Lexer) =
      .halt ⟨7, 7, 0, "\x7b\x7b 1 \x7d\x7d".toList,
      [⟨"\x7b\x7b".toList, 0, .printOpen⟩,
       ⟨"1".toList, 3, .number⟩,
       ⟨"\x7d\x7d".toList, 5, .printClose⟩,
       ⟨[], 7, .eof⟩]⟩ := by decide
  refine ⟨?_, ?_, ?_, by decide⟩
  · exact ((run_step_cont 5 _ _ _ _ f0).trans ((run_step_cont 4 _ _ _ _ f1).trans ((run_step_cont 3 _ _ _ _ f2).trans ((run_step_cont 2 _ _ _ _ f3).trans ((run_step_cont 1 _ _ _ _ f4).trans (run_step_halt 0 _ _ _ f5))))))
  · exact ((run_step_cont 5 _ _ _ _ h0).trans ((run_step_cont 4 _ _ _ _ h1).trans ((run_step_cont 3 _ _ _ _ h2).trans ((run_step_cont 2 _ _ _ _ h3).trans ((run_step_cont 1 _ _ _ _ h4).trans (run_step_halt 0 _ _ _ h5))))))
  · exact ((run_step_cont 6 _ _ _ _ g0).trans ((run_step_cont 5 _ _ _ _ g1).trans ((run_step_cont 4 _ _ _ _ g2).trans ((run_step_cont 3 _ _ _ _ g3).trans ((run_step_cont 2 _ _ _ _ g4).trans ((run_step_cont 1 _ _ _ _ g5).trans (run_step_halt 0 _ _ _ g6)))))))

end Stick
namespace Stick

theorem next_read (t : Tree) : (Tree.next t).2.read = t.read ++ [(Tree.next t).1] := by
  unfold Tree.next
  rcases hu : t.unread.getLast? with _ | tok
  · dsimp only
    unfold Tree.nextToken
    rcases hs : t.stream with _ | ⟨tok2, rest⟩
    · rfl
    · rfl
  · rfl

theorem next_unread_concat (blocks : List BlockMap) (u : List Token) (x : Token)
    (r s : List Token) :
    Tree.next ⟨blocks, u ++ [x], r, s⟩ = (x, ⟨blocks, u, r ++ [x], s⟩) := by
  unfold Tree.next
  rw [List.getLast?_concat]
  dsimp only
  rw [List.dropLast_concat]

theorem backup_concat (blocks : List BlockMap) (u r : List Token) (x : Token)
    (s : List Token) :
    Tree.backup ⟨blocks, u, r ++ [x], s⟩ = some ⟨blocks, u ++ [x], r, s⟩ := by
  unfold Tree.backup
  rw [List.getLast?_concat]
  dsimp only
  rw [List.dropLast_concat]

theorem backup3_of_read3 (t3 : Tree) (r0 : List Token) (a b c : Token)
    (h : t3.read = ((r0 ++ [a]) ++ [b]) ++ [c]) :
    Tree.backup3 t3 = some ⟨t3.blocks, ((t3.unread ++ [c]) ++ [b]) ++ [a], r0, t3.stream⟩ := by
  unfold Tree.backup3
  have hb1 : Tree.backup t3 = some ⟨t3.blocks, t3.unread ++ [c], (r0 ++ [a]) ++ [b], t3.stream⟩ := by
    have hx := backup_concat t3.blocks t3.unread ((r0 ++ [a]) ++ [b]) c t3.stream
    rw [← h] at hx
    exact hx
  rw [hb1]
  dsimp only [Option.bind]
  rw [backup_concat]
  dsimp only [Option.bind]
  rw [backup_concat]

/-- C7: from any parser state, reading three tokens, backtracking three
times (backup3) and reading again yields the same three tokens in the
same order. -/
theorem parser_backtrack3 (t : Tree) :
    ∃ t6 : Tree,
      Tree.backup3 (Tree.next (Tree.next (Tree.next t).2).2).2 = some t6 ∧
      (Tree.next t6).1 = (Tree.next t).1 ∧
      (Tree.next (Tree.next t6).2).1 = (Tree.next (Tree.next t).2).1 ∧
      (Tree.next (Tree.next (Tree.next t6).2).2).1 =
        (Tree.next (Tree.next (Tree.next t).2).2).1 := by
  set a := (Tree.next t).1 with ha
  set t1 := (Tree.next t).2 with ht1
  set b := (Tree.next t1).1 with hb
  set t2 := (Tree.next t1).2 with ht2
  set c := (Tree.next t2).1 with hc
  set t3 := (Tree.next t2).2 with ht3
  have h1 : t1.read = t.read ++ [a] := next_read t
  have h2 : t2.read = (t.read ++ [a]) ++ [b] := by
    rw [next_read t1, h1]
  have h3 : t3.read = ((t.read ++ [a]) ++ [b]) ++ [c] := by
    rw [next_read t2, h2]
  have hb3 := backup3_of_read3 t3 t.read a b c h3
  refine ⟨⟨t3.blocks, ((t3.unread ++ [c]) ++ [b]) ++ [a], t.read, t3.stream⟩, hb3, ?_, ?_, ?_⟩
  · rw [next_unread_concat]
  · rw [next_unread_concat]
    dsimp only
    rw [next_unread_concat]
  · rw [next_unread_concat]
    dsimp only
    rw [next_unread_concat]
    dsimp only
    rw [next_unread_concat]

/-- C8 (counterexample to the claim as stated): when the enclosing scope
already contains the very entry, the entry is present in the enclosing
scope's map after the pop (the pop merely discards the inner scope; it
neither merges nor removes). -/
theorem block_stack_parent_entry :
    Tree.setBlock (Tree.pushBlockStack ⟨[[("a", ⟨0⟩)]], [], [], []⟩) "a" ⟨0⟩ =
      some ⟨[[("a", ⟨0⟩)], [("a", ⟨0⟩)]], [], [], []⟩ ∧
    Tree.popBlockStack ⟨[[("a", ⟨0⟩)], [("a", ⟨0⟩)]], [], [], []⟩ =
      some ([("a", ⟨0⟩)], ⟨[[("a", ⟨0⟩)]], [], [], []⟩) ∧
    Tree.Blocks ⟨[[("a", ⟨0⟩)]], [], [], []⟩ = some [("a", ⟨0⟩)] ∧
    mapGet [("a", (⟨0⟩ : BlockNode))] "a" = some ⟨0⟩ := by
  refine ⟨by decide, by decide, by decide, by decide⟩

/-- C8 (amended): push; setBlock name node; pop returns a map holding
exactly the single entry (name, node), and leaves the whole remaining
block stack — in particular the enclosing scope's map — exactly as it
was before the push: the popped entry is merged nowhere, so it is absent
from the enclosing scope whenever it was absent before. -/
theorem block_stack_push_set_pop (t : Tree) (name : String) (node : BlockNode) :
    ∃ t2 t3 : Tree,
      Tree.setBlock (Tree.pushBlockStack t) name node = some t2 ∧
      Tree.popBlockStack t2 = some ([(name, node)], t3) ∧
      t3.blocks = t.blocks := by
  refine ⟨⟨t.blocks ++ [[(name, node)]], t.unread, t.read, t.stream⟩,
    ⟨t.blocks, t.unread, t.read, t.stream⟩, ?_, ?_, rfl⟩
  · unfold Tree.setBlock Tree.pushBlockStack
    dsimp only
    rw [List.getLast?_concat]
    dsimp only
    rw [List.dropLast_concat]
    rfl
  · unfold Tree.popBlockStack
    dsimp only
    rw [List.getLast?_concat]
    dsimp only
    rw [List.dropLast_concat]


/-- C3 (counterexample to the claim as stated): tokenizing the
unterminated-string example produces no token whose value is the message
"unterminated string" — the error token's message is "unclosed string". -/
theorem unterminated_string_message_absent :
    lex ("\x7b\x7b \x22unterminated \x7d\x7d".toList) 4 = .done
      ⟨4, 4, 0, "\x7b\x7b \x22unterminated \x7d\x7d".toList,
      [⟨"\x7b\x7b".toList, 0, .printOpen⟩,
       ⟨"\x22".toList, 3, .stringOpen⟩,
       ⟨"unclosed string".toList, 4, .error⟩]⟩ ∧
    ((⟨4, 4, 0, "\x7b\x7b \x22unterminated \x7d\x7d".toList,
      [⟨"\x7b\x7b".toList, 0, .printOpen⟩,
       ⟨"\x22".toList, 3, .stringOpen⟩,
       ⟨"unclosed string".toList, 4, .error⟩]⟩ : Lexer).tokens.filter
        (fun t => t.value == "unterminated string".toList)).length = 0 := by
  have d0 : step .data
      (⟨0, 0, 0, "\x7b\x7b \x22unterminated \x7d\x7d".toList,
      []⟩ : Lexer) =
      .cont .printOpen ⟨0, 0, 0, "\x7b\x7b \x22unterminated \x7d\x7d".toList,
      []⟩ := by decide
  have d1 : step .printOpen
      (⟨0, 0, 0, "\x7b\x7b \x22unterminated \x7d\x7d".toList,
      []⟩ : Lexer) =
      .cont .expression ⟨3, 3, 0, "\x7b\x7b \x22unterminated \x7d\x7d".toList,
      [⟨"\x7b\x7b".toList, 0, .printOpen⟩]⟩ := by decide
  have d2 : step .expression
      (⟨3, 3, 0, "\x7b\x7b \x22unterminated \x7d\x7d".toList,
      [⟨"\x7b\x7b".toList, 0, .printOpen⟩]⟩ : Lexer) =
      .cont .strLit ⟨3, 3, 0, "\x7b\x7b \x22unterminated \x7d\x7d".toList,
      [⟨"\x7b\x7b".toList, 0, .printOpen⟩]⟩ := by decide
  have d3 : step .strLit
      (⟨3, 3, 0, "\x7b\x7b \x22unterminated \x7d\x7d".toList,
      [⟨"\x7b\x7b".toList, 0, .printOpen⟩]⟩ : Lexer) =
      .halt ⟨4, 4, 0, "\x7b\x7b \x22unterminated \x7d\x7d".toList,
      [⟨"\x7b\x7b".toList, 0, .printOpen⟩,
       ⟨"\x22".toList, 3, .stringOpen⟩,
       ⟨"unclosed string".toList, 4, .error⟩]⟩ := by decide
  refine ⟨?_, by decide⟩
  exact ((run_step_cont 3 _ _ _ _ d0).trans ((run_step_cont 2 _ _ _ _ d1).trans ((run_step_cont 1 _ _ _ _ d2).trans (run_step_halt 0 _ _ _ d3))))

end Stick
